import Mathlib

/-! Server chat relay (`src/Server/ServerChat.cpp`).

A shallow embedding of the chat relay of `ServerChat.cpp`: the wire codec of
`ChatMessagePacketHandler`, the per-address flood filter, the host-side routing
of `HostReceivedMessage` and the fan-out of `BroadcastMessage`.

Conventions of the embedding.

* A C string (`char Body[MaxMessageLength + 1]`, `wchar_t Sender[...]`) is the list of its
  code units before the terminating NUL; a well-formed string has no zero unit.
* `int` is `Int`, wrapped to 32 bits in two's complement (`toInt32`) after every addition,
  doubling and conversion that can leave the range; `unsigned long`, `size_t` and `DWORD`
  are `Nat` reduced modulo `2 ^ 32` (the program is a 32-bit Windows module).
* Effects on the outside world (handler callbacks, transport sends, log lines) are
  collected, in program order, in a list of `Effect`.
-/

namespace ServerChat

/-! ## Declarations of `ServerChat.hpp` -/

/-- Compile-time sizes declared in `ServerChat.hpp`, which is not part of the sources:
`MaxMessageLength` (the body array has `MaxMessageLength + 1` elements) and the number
of elements of the `Sender` array. They are parameters of the development. -/
structure Limits where
  MaxMessageLength : Nat
  SenderSize : Nat
deriving DecidableEq, Repr

/-- The underlying integer of a `ChatMessageType`. `Deserialize` stores any value read
from the stream with `static_cast`, so the field ranges over all ordinals. -/
abbrev ChatMessageType := Nat

namespace ChatMessageType

def Global : ChatMessageType := 0
def Team : ChatMessageType := 1
def Whisper : ChatMessageType := 2
def Server : ChatMessageType := 3
def Count : ChatMessageType := 4

end ChatMessageType

/-- The `ChatMessage` struct; `MessageType` is its `Type` member. -/
structure ChatMessage where
  MessageType : ChatMessageType
  Body : List Nat
  Sender : List Nat
  Target : Nat
deriving DecidableEq, Repr

/-- The message after `memset(data, 0, sizeof(*data))`. -/
def ChatMessage.zeroed : ChatMessage := ⟨0, [], [], 0⟩

/-- A string that fits a character array of `size` elements of `width` bits each:
no NUL inside, every unit representable, room left for the terminator. -/
def FitsString (width size : Nat) (str : List Nat) : Prop :=
  str.length < size ∧ ∀ c ∈ str, 0 < c ∧ c < 2 ^ width

instance (width size : Nat) (str : List Nat) : Decidable (FitsString width size str) := by
  unfold FitsString
  infer_instance

/-- A message whose fields fit their storage. -/
def ChatMessage.Fits (L : Limits) (m : ChatMessage) : Prop :=
  FitsString 8 (L.MaxMessageLength + 1) m.Body ∧ FitsString 16 L.SenderSize m.Sender ∧
    m.Target < 2 ^ 64

instance (L : Limits) (m : ChatMessage) : Decidable (m.Fits L) := by
  unfold ChatMessage.Fits
  infer_instance

/-! ## `Blam::BitStream` -/

/-- Little-endian bits of `value`, `width` of them. -/
def toBits : Nat → Nat → List Bool
  | 0, _ => []
  | w + 1, v => (v % 2 == 1) :: toBits w (v / 2)

/-- The number a list of little-endian bits denotes. -/
def ofBits : List Bool → Nat
  | [] => 0
  | b :: bs => (if b then 1 else 0) + 2 * ofBits bs

def CountBits.go : Nat → Nat → Nat
  | 0, _ => 0
  | fuel + 1, n => if n = 0 then 0 else CountBits.go fuel (n / 2) + 1

/-- Modelled from the spec: `Utils::Bits::CountBits` is not part of the sources. The number
of bits needed to write every value of `0 .. n`, used by the range-bound
`WriteUnsigned`/`ReadUnsigned` ("an unsigned value range-bound to `[0, Count)`"). -/
def CountBits (n : Nat) : Nat := CountBits.go n n

/-- Modelled from the spec: `Blam::BitStream` is not part of the sources. A stream is the
sequence of bits that have not been read yet; `reads` counts the read operations
performed on it so far. -/
structure BitStream where
  bits : List Bool
  reads : Nat
deriving DecidableEq, Repr

namespace BitStream

/-- An empty stream. -/
def empty : BitStream := ⟨[], 0⟩

/-- Modelled from the spec: `WriteUnsigned(value, bits)` appends the low `bits` bits. -/
def WriteUnsigned (s : BitStream) (value width : Nat) : BitStream :=
  { s with bits := s.bits ++ toBits width value }

/-- Modelled from the spec: `WriteUnsigned(value, minValue, maxValue)`. -/
def WriteUnsignedRange (s : BitStream) (value minValue maxValue : Nat) : BitStream :=
  s.WriteUnsigned (value - minValue) (CountBits (maxValue - minValue))

/-- Modelled from the spec: `ReadUnsigned(bits)` has no failure result; bits beyond the
end of the stream read as zero. -/
def ReadUnsigned (s : BitStream) (width : Nat) : Nat × BitStream :=
  (ofBits (s.bits.take width), ⟨s.bits.drop width, s.reads + 1⟩)

/-- Modelled from the spec: `ReadUnsigned(minValue, maxValue)`. -/
def ReadUnsignedRange (s : BitStream) (minValue maxValue : Nat) : Nat × BitStream :=
  let r := s.ReadUnsigned (CountBits (maxValue - minValue))
  (minValue + r.1, r.2)

/-- The bits of a sentinel-terminated string of `width`-bit units. -/
def stringBits (width : Nat) : List Nat → List Bool
  | [] => toBits width 0
  | c :: cs => toBits width c ++ stringBits width cs

/-- Modelled from the spec: `WriteString` writes the units of the array up to and
including the terminating NUL ("a sentinel-terminated text field"). -/
def WriteString (s : BitStream) (width : Nat) (str : List Nat) : BitStream :=
  { s with bits := s.bits ++ stringBits width str }

/-- Reads units until the NUL; `room` is the number of array elements still free. Fails
when the stream ends before the terminator or the array is full. -/
def ReadString.loop (width : Nat) : Nat → List Bool → Option (List Nat) × List Bool
  | 0, bits => (none, bits)
  | room + 1, bits =>
    if bits.length < width then (none, bits)
    else
      let c := ofBits (bits.take width)
      if c = 0 then (some [], bits.drop width)
      else
        match ReadString.loop width room (bits.drop width) with
        | (none, rest) => (none, rest)
        | (some cs, rest) => (some (c :: cs), rest)

/-- Modelled from the spec: `ReadString(out)` for an array of `size` elements; `none` is
the `false` return ("cannot be read (truncated stream)"). -/
def ReadString (s : BitStream) (width size : Nat) : Option (List Nat) × BitStream :=
  let r := ReadString.loop width size s.bits
  (r.1, ⟨r.2, s.reads + 1⟩)

end BitStream

/-! ## `ChatMessagePacketHandler` -/

open ChatMessageType in
/-- `ChatMessagePacketHandler::Serialize`. -/
def Serialize (stream : BitStream) (data : ChatMessage) : BitStream :=
  -- Message type
  let s1 := stream.WriteUnsignedRange data.MessageType 0 Count
  -- Body
  let s2 := s1.WriteString 8 data.Body
  -- For non-server messages, serialize the sender name
  let s3 := if data.MessageType ≠ Server then s2.WriteString 16 data.Sender else s2
  -- For whisper messages, serialize the target UID
  if data.MessageType = Whisper then s3.WriteUnsigned data.Target 64 else s3

open ChatMessageType in
/-- The last step of `Deserialize`: for whisper messages the target UID is read, with the
unchecked `ReadUnsigned<uint64_t>(64)`, and the function returns `true`. -/
def Deserialize.target (data : ChatMessage) (stream : BitStream) :
    Bool × ChatMessage × BitStream :=
  if data.MessageType = Whisper then
    let r := stream.ReadUnsigned 64
    (true, { data with Target := r.1 }, r.2)
  else (true, data, stream)

open ChatMessageType in
/-- `ChatMessagePacketHandler::Deserialize`: the `bool` result, the contents of `*data`
and the stream afterwards. The contents of a string field whose read failed are not
specified by the sources; the embedding leaves it zeroed. -/
def Deserialize (L : Limits) (stream : BitStream) : Bool × ChatMessage × BitStream :=
  let data := ChatMessage.zeroed
  -- Message type
  let r1 := stream.ReadUnsignedRange 0 Count
  let data := { data with MessageType := r1.1 }
  if r1.1 ≥ Count then (false, data, r1.2)
  else
    -- Body
    match r1.2.ReadString 8 (L.MaxMessageLength + 1) with
    | (none, s2) => (false, data, s2)
    | (some body, s2) =>
      let data := { data with Body := body }
      -- For non-server messages, deserialize the sender name
      if data.MessageType ≠ Server then
        match s2.ReadString 16 L.SenderSize with
        | (none, s3) => (false, data, s3)
        | (some sender, s3) => Deserialize.target { data with Sender := sender } s3
      else Deserialize.target data s2

/-! ## Machine integers -/

/-- The value of an `int` after wrapping to 32 bits in two's complement. -/
def toInt32 (x : Int) : Int := (x + 2 ^ 31) % 2 ^ 32 - 2 ^ 31

/-- The values an `int` can hold; arithmetic whose exact result is in this range does not
overflow. -/
def InInt32 (x : Int) : Prop := -2 ^ 31 ≤ x ∧ x < 2 ^ 31

instance (x : Int) : Decidable (InInt32 x) := by
  unfold InInt32
  infer_instance

/-- The value of an `unsigned long`, `size_t` or `DWORD` (32 bits). -/
def toUInt32 (x : Int) : Nat := (x % 2 ^ 32).toNat

/-! ## Collaborators -/

/-- The integer values of the `Modules::ModuleServer` variables the chat relay reads
(`Var...->ValueInt`, an unsigned 32-bit value), and whether the chat log file can be
opened for appending. `ModuleServer.hpp` is not part of the sources. -/
structure ServerConfig where
  FloodFilterEnabled : Nat
  FloodMessageScoreShort : Nat
  FloodMessageScoreLong : Nat
  FloodTimeoutScore : Nat
  FloodTimeoutSeconds : Nat
  FloodTimeoutResetSeconds : Nat
  ChatLogEnabled : Nat
  ChatLogOpens : Bool
deriving DecidableEq, Repr

/-- Modelled from the spec: `Blam::Network::Session` with its `MembershipInfo` is not part
of the sources. `Peers` is the sequence of values that `FindFirstPeer()` and the successive
`FindNextPeer(peer)` calls return ("enumerate connected peer slots", in session order);
past its end the membership returns `-1`. `DisplayName` and `Uid` are the fields of
`PlayerSessions[playerIndex]`, `GetPeerAddress` is `GetPeerAddress(peer).Address.IPv4`. -/
structure Session where
  IsHost : Bool
  IsEstablished : Bool
  HasTeams : Bool
  LocalPeerIndex : Int
  HostPeerIndex : Int
  Peers : List Int
  GetPeerTeam : Int → Int
  GetPeerPlayer : Int → Int
  DisplayName : Int → List Nat
  Uid : Int → Nat
  GetPeerAddress : Int → Nat

/-- `PeerBitSet` (a `std::bitset` over the peer slots), as its membership function. -/
abbrev PeerBitSet := Nat → Bool

namespace PeerBitSet

/-- A default-constructed bitset, and `reset()`: no bit set. -/
def none : PeerBitSet := fun _ => false

/-- The bitset after `set()`: every bit set. -/
def all : PeerBitSet := fun _ => true

/-- The bitset after `set(peer)`, for the non-negative peer indices the program passes. -/
def set (b : PeerBitSet) (peer : Int) : PeerBitSet := fun i => if i = peer.toNat then true else b i

/-- The value of `peers[peer]`, for the non-negative peer indices the program passes. -/
def test (b : PeerBitSet) (peer : Int) : Bool := b peer.toNat

end PeerBitSet

/-- A registered `ChatHandler`: what its `MessageSent(senderPeer, message, ignore)` callback
leaves in `*message` and `*ignore`. Its `MessageReceived` callback returns nothing; both
callbacks are recorded as effects. -/
structure ChatHandler where
  MessageSent : Int → ChatMessage → Bool → ChatMessage × Bool

/-- A line of the chat log (without its timestamp): sender name, UID, IP address, body. -/
structure LogLine where
  Sender : List Nat
  Uid : Nat
  Ip : Nat
  Body : List Nat
deriving DecidableEq, Repr

/-- What the chat relay does to the outside world. `MessageSent i p m g` is the call of
the `i`-th handler's `MessageSent` with sender peer `p`, message `m` and `*ignore = g`;
`MessageReceived i m` the call of its `MessageReceived`; `PacketSend p m` is
`PacketSender->Send(p, packet)` with `packet.Data = m`; `Log l` one line appended to the
chat log. -/
inductive Effect where
  | MessageSent (handler : Nat) (senderPeer : Int) (message : ChatMessage) (ignore : Bool)
  | MessageReceived (handler : Nat) (message : ChatMessage)
  | PacketSend (peer : Int) (message : ChatMessage)
  | Log (line : LogLine)
deriving DecidableEq, Repr

/-- The process-wide surroundings of a call: the constants of the header, the server
variables, the registered handlers (`chatHandlers`) and the result of
`Blam::Network::GetActiveSession()`. -/
structure Env where
  L : Limits
  cfg : ServerConfig
  chatHandlers : List ChatHandler
  ActiveSession : Option Session

/-! ## Flood records -/

/-- `ClientSpamStats`. -/
structure ClientSpamStats where
  SpamScore : Int
  TimeoutSeconds : Int
  NextTimeoutSeconds : Int
  TimeoutResetSeconds : Int
deriving DecidableEq, Repr

/-- The record the constructor `ClientSpamStats()` builds. -/
def ClientSpamStats.new : ClientSpamStats := ⟨0, 0, 0, 0⟩

/-- `SpamStats`, the `std::unordered_map<uint32_t, ClientSpamStats>`, as a finite map. -/
abbrev SpamTable := Nat → Option ClientSpamStats

/-- The table with the record of `ip` replaced. -/
def SpamTable.store (t : SpamTable) (ip : Nat) (r : ClientSpamStats) : SpamTable :=
  fun k => if k = ip then some r else t k

/-- The result of a call that may touch the flood table and the outside world. -/
structure Outcome where
  result : Bool
  SpamStats : SpamTable
  effects : List Effect

/-! ## Sending -/

/-- The text of a `std::string` literal as code units. -/
def chars (s : String) : List Nat := s.toList.map Char.toNat

/-- `std::to_string(int)`. -/
def to_string (n : Int) : List Nat := chars (toString n)

/-- `ChatMessage::ChatMessage(type, body)`: zeroed, then `strncpy` of at most
`MaxMessageLength` characters of `body.c_str()`. -/
def ChatMessage.new (L : Limits) (type : ChatMessageType) (body : List Nat) : ChatMessage :=
  { ChatMessage.zeroed with
    MessageType := type
    Body := (body.takeWhile (· ≠ 0)).take L.MaxMessageLength }

/-- `SendMessagePacket`. -/
def SendMessagePacket (peer : Int) (message : ChatMessage) : Bool × List Effect :=
  if peer < 0 then (false, [])
  else (true, [Effect.PacketSend peer message])

/-- `ClientReceivedMessage`: the message goes to every handler, in registration order. -/
def ClientReceivedMessage (env : Env) (message : ChatMessage) : List Effect :=
  (List.range env.chatHandlers.length).map fun i => Effect.MessageReceived i message

/-- The first loop of `BroadcastMessage`: every handler's `MessageSent` is called in turn
on the same `message` and `ignore`; `i` is the index of the first handler of the list. -/
def BroadcastMessage.handlers : List ChatHandler → Nat → Int → ChatMessage → Bool →
    ChatMessage × Bool × List Effect
  | [], _, _, message, ignore => (message, ignore, [])
  | h :: hs, i, senderPeer, message, ignore =>
    let r := h.MessageSent senderPeer message ignore
    let rest := BroadcastMessage.handlers hs (i + 1) senderPeer r.1 r.2
    (rest.1, rest.2.1, Effect.MessageSent i senderPeer message ignore :: rest.2.2)

/-- The second loop of `BroadcastMessage`, over the peers the membership enumerates. -/
def BroadcastMessage.loop (env : Env) (session : Session) (message : ChatMessage)
    (peers : PeerBitSet) : List Int → Bool × List Effect
  | [] => (true, [])
  | peer :: next =>
    if peer < 0 then (true, [])
    else if !peers.test peer then BroadcastMessage.loop env session message peers next
    else if peer = session.LocalPeerIndex then
      let r := BroadcastMessage.loop env session message peers next
      (r.1, ClientReceivedMessage env message ++ r.2)
    else
      let sent := SendMessagePacket peer message
      if !sent.1 then (false, sent.2)
      else
        let r := BroadcastMessage.loop env session message peers next
        (r.1, sent.2 ++ r.2)

/-- `BroadcastMessage`. -/
def BroadcastMessage (env : Env) (session : Session) (senderPeer : Int)
    (message : ChatMessage) (peers : PeerBitSet) : Bool × List Effect :=
  if senderPeer < 0 then (false, [])
  else
    -- Run the message through each registered handler
    let h := BroadcastMessage.handlers env.chatHandlers 0 senderPeer message false
    if h.2.1 then (true, h.2.2) -- Message was rejected by a handler
    else
      let r := BroadcastMessage.loop env session h.1 peers session.Peers
      (r.1, h.2.2 ++ r.2)

/-- `SendServerMessage`. -/
def SendServerMessage (env : Env) (body : List Nat) (peers : PeerBitSet) : Bool × List Effect :=
  match env.ActiveSession with
  | Option.none => (false, [])
  | some session =>
    if !session.IsEstablished || !session.IsHost then (false, [])
    else
      BroadcastMessage env session session.LocalPeerIndex
        (ChatMessage.new env.L ChatMessageType.Server body) peers

/-! ## Routing -/

/-- The loop of `GetTeamPeers`. -/
def GetTeamPeers.loop (session : Session) (senderTeam : Int) (result : PeerBitSet) :
    List Int → PeerBitSet
  | [] => result
  | peer :: next =>
    if peer < 0 then result
    else if session.GetPeerTeam peer = senderTeam then
      GetTeamPeers.loop session senderTeam (result.set peer) next
    else GetTeamPeers.loop session senderTeam result next

/-- `GetTeamPeers`: the `bool` result and `*result`. -/
def GetTeamPeers (session : Session) (senderPeer : Int) : Bool × PeerBitSet :=
  let result := PeerBitSet.none
  -- Get the sender's team
  if !session.HasTeams then (false, result)
  else
    let senderTeam := session.GetPeerTeam senderPeer
    if senderTeam < 0 then (false, result)
    else (true, GetTeamPeers.loop session senderTeam result session.Peers)

open ChatMessageType in
/-- `GetMessagePeers`: the `bool` result and `*result`, which the caller passes in as
`result`. The `Team` case drops the result of `GetTeamPeers`. -/
def GetMessagePeers (session : Session) (senderPeer : Int) (message : ChatMessage)
    (result : PeerBitSet) : Bool × PeerBitSet :=
  if message.MessageType = Global then (true, PeerBitSet.all)
  else if message.MessageType = Team then (true, (GetTeamPeers session senderPeer).2)
  else (false, result)

/-- `FillInSenderName`: the `bool` result and `*message`. -/
def FillInSenderName (env : Env) (session : Session) (senderPeer : Int)
    (message : ChatMessage) : Bool × ChatMessage :=
  let playerIndex := session.GetPeerPlayer senderPeer
  if playerIndex < 0 then (false, message)
  else (true, { message with
    Sender := (session.DisplayName playerIndex).take (env.L.SenderSize - 1) })

/-! ## Flood filter -/

/-- `CalculateSpamScore`. The operands are unsigned 32-bit values (`ValueInt`, and the
`size_t` of `strlen`), so the sum, the product and the difference wrap modulo `2 ^ 32` and the
division is unsigned; the result is converted to `int`. -/
def CalculateSpamScore (env : Env) (_ip : Nat) (_stats : ClientSpamStats)
    (message : ChatMessage) : Int :=
  let shortScore : Nat := env.cfg.FloodMessageScoreShort % 2 ^ 32
  let longScore : Nat := env.cfg.FloodMessageScoreLong % 2 ^ 32
  let range : Nat := toUInt32 ((longScore : Int) + 1 - shortScore)
  let scaled : Nat := message.Body.length * range % 2 ^ 32 / (env.L.MaxMessageLength + 1)
  toInt32 (((shortScore + scaled) % 2 ^ 32 : Nat) : Int)

/-- The first block of `FloodFilterMessage`, on the record of the address: outside a
timeout the score of the message is added and a timeout may start. -/
def FloodFilterMessage.update (env : Env) (ip : Nat) (stats : ClientSpamStats)
    (message : ChatMessage) : ClientSpamStats :=
  if stats.TimeoutSeconds ≤ 0 then
    -- Calculate the message's spam score and add it to the IP's total score
    let score := CalculateSpamScore env ip stats message
    let stats := { stats with SpamScore := toInt32 (stats.SpamScore + score) }
    -- If the total score reached the timeout score, then start a timeout
    if stats.SpamScore ≥ toInt32 env.cfg.FloodTimeoutScore then
      -- If the IP had a previous timeout that hasn't been reset yet, double it,
      -- otherwise start with the default
      let stats :=
        if stats.NextTimeoutSeconds > 0 then
          { stats with NextTimeoutSeconds := toInt32 (stats.NextTimeoutSeconds * 2) }
        else
          { stats with NextTimeoutSeconds := toInt32 env.cfg.FloodTimeoutSeconds }
      { stats with
        TimeoutSeconds := stats.NextTimeoutSeconds
        TimeoutResetSeconds := toInt32 env.cfg.FloodTimeoutResetSeconds }
    else stats
  else stats

/-- The text of the notice `FloodFilterMessage` sends. -/
def FloodFilterMessage.notice (timeoutSeconds : Int) : List Nat :=
  chars "You have exceeded the server's spam limit. You can chat again in "
    ++ to_string timeoutSeconds ++ chars " second(s)."

/-- `FloodFilterMessage`: `result` is `true` when the message is thrown out. The record of
the address is looked up, or inserted as `ClientSpamStats()` when absent. -/
def FloodFilterMessage (env : Env) (SpamStats : SpamTable) (session : Session) (peer : Int)
    (message : ChatMessage) : Outcome :=
  -- Increase the IP's spam score and put it in timeout if it exceeds the maximum
  let ip := session.GetPeerAddress peer
  let found := (SpamStats ip).getD ClientSpamStats.new
  let stats := FloodFilterMessage.update env ip found message
  let table := SpamStats.store ip stats
  -- If the IP is in a timeout state, send an error and return
  if stats.TimeoutSeconds > 0 then
    let targetPeers := PeerBitSet.none.set peer
    let sent := SendServerMessage env (FloodFilterMessage.notice stats.TimeoutSeconds) targetPeers
    ⟨true, table, sent.2⟩
  else ⟨false, table, []⟩

/-! ## Host side -/

/-- `LogMessage`: one line is appended when the log is enabled and the file opens. The
sender name goes through `Utils::String::ThinString`, which is not part of the sources; the
line records the name as stored in the message. -/
def LogMessage (env : Env) (session : Session) (peer : Int) (message : ChatMessage) :
    List Effect :=
  if env.cfg.ChatLogEnabled = 0 then []
  else if !env.cfg.ChatLogOpens then []
  else
    -- Get the UID
    let playerIndex := session.GetPeerPlayer peer
    let uid := if playerIndex ≥ 0 then session.Uid playerIndex else 0
    [Effect.Log ⟨message.Sender, uid, session.GetPeerAddress peer, message.Body⟩]

/-- The flood check of `HostReceivedMessage`: the filter runs unless the peer is the local
peer or the filter is disabled. -/
def HostReceivedMessage.floodCheck (env : Env) (SpamStats : SpamTable) (session : Session)
    (peer : Int) (broadcastMessage : ChatMessage) : Outcome :=
  if peer ≠ session.LocalPeerIndex ∧ env.cfg.FloodFilterEnabled ≠ 0 then
    FloodFilterMessage env SpamStats session peer broadcastMessage
  else ⟨false, SpamStats, []⟩

/-- The end of `HostReceivedMessage`, for a message the flood check let through: the message
is logged, the destination set is computed and the message is broadcast. -/
def HostReceivedMessage.deliver (env : Env) (SpamStats : SpamTable) (session : Session)
    (peer : Int) (message broadcastMessage : ChatMessage) : Outcome :=
  let logged := LogMessage env session peer broadcastMessage
  let targetPeers := GetMessagePeers session peer message PeerBitSet.none
  if !targetPeers.1 then ⟨false, SpamStats, logged⟩
  else
    let sent := BroadcastMessage env session peer broadcastMessage targetPeers.2
    ⟨sent.1, SpamStats, logged ++ sent.2⟩

open ChatMessageType in
/-- `HostReceivedMessage`. -/
def HostReceivedMessage (env : Env) (SpamStats : SpamTable) (session : Session) (peer : Int)
    (message : ChatMessage) : Outcome :=
  -- Verify that the message isn't empty and that the type is valid
  if peer < 0 ∨ message.Body = [] ∨ message.MessageType = Server then ⟨false, SpamStats, []⟩
  else
    -- Don't trust the Sender field
    let filled := FillInSenderName env session peer message
    if !filled.1 then ⟨false, SpamStats, []⟩
    else
      let broadcastMessage := filled.2
      -- Check the message against the flood filter if it's enabled
      let flood := HostReceivedMessage.floodCheck env SpamStats session peer broadcastMessage
      if flood.result then ⟨true, flood.SpamStats, flood.effects⟩ -- Message was thrown out
      else HostReceivedMessage.deliver env flood.SpamStats session peer message broadcastMessage

/-! ## `Tick` -/

/-- The body of the inner loop of `Tick` up to the erase test, on one record. -/
def Tick.record (r : ClientSpamStats) : ClientSpamStats :=
  let r := if r.SpamScore > 0 then { r with SpamScore := r.SpamScore - 1 } else r
  let r :=
    if r.TimeoutSeconds > 0 then { r with TimeoutSeconds := r.TimeoutSeconds - 1 }
    else if r.TimeoutResetSeconds > 0 then
      -- Only decrement the timeout reset if no timeout is active
      { r with TimeoutResetSeconds := r.TimeoutResetSeconds - 1 }
    else r
  if r.TimeoutResetSeconds = 0 then { r with NextTimeoutSeconds := 0 } else r

/-- The erase test at the end of the inner loop of `Tick`. -/
def Tick.erases (r : ClientSpamStats) : Bool :=
  r.TimeoutSeconds ≤ 0 && r.SpamScore ≤ 0 && r.TimeoutResetSeconds ≤ 0

/-- The inner loop of `Tick`: one pass over every record of the table. -/
def Tick.pass (t : SpamTable) : SpamTable := fun ip =>
  match t ip with
  | Option.none => Option.none
  | some r => if Tick.erases (Tick.record r) then Option.none else some (Tick.record r)

/-- The outer loop of `Tick`, `while (SpamUpdateMs >= 1000)`; every turn takes 1000 off the
counter, so `fuel = SpamUpdateMs` turns are enough. -/
def Tick.loop : Nat → Nat → SpamTable → Nat × SpamTable
  | 0, SpamUpdateMs, t => (SpamUpdateMs, t)
  | fuel + 1, SpamUpdateMs, t =>
    if SpamUpdateMs ≥ 1000 then Tick.loop fuel (SpamUpdateMs - 1000) (Tick.pass t)
    else (SpamUpdateMs, t)

/-- The globals `Tick` works on. -/
structure ChatState where
  SpamStats : SpamTable
  LastTimeMs : Nat
  SpamUpdateMs : Nat

/-- `Tick`, with the value `timeGetTime()` returns as `currentTimeMs`. -/
def Tick (st : ChatState) (currentTimeMs : Nat) : ChatState :=
  -- Compute the time delta
  let timeDeltaMs := toUInt32 ((currentTimeMs : Int) - st.LastTimeMs)
  -- Update the flood filter for each second that has passed
  let SpamUpdateMs := (st.SpamUpdateMs + timeDeltaMs) % 2 ^ 32
  let r := Tick.loop SpamUpdateMs SpamUpdateMs st.SpamStats
  ⟨r.2, currentTimeMs, r.1⟩

/-! ## Histories of a flood record -/

/-- What can happen to the flood table between two calls of interest: a one-second pass of
`Tick`, or a message of some peer of the session going through `FloodFilterMessage`. -/
inductive FloodEvent where
  | second
  | message (peer : Int) (m : ChatMessage)

/-- The flood table after an event. -/
def FloodEvent.apply (env : Env) (session : Session) (t : SpamTable) : FloodEvent → SpamTable
  | FloodEvent.second => Tick.pass t
  | FloodEvent.message peer m => (FloodFilterMessage env t session peer m).SpamStats

/-- The flood table after a list of events. -/
def FloodEvent.run (env : Env) (session : Session) (t : SpamTable) (es : List FloodEvent) :
    SpamTable :=
  es.foldl (FloodEvent.apply env session) t

/-- The number of one-second passes in a list of events. -/
def FloodEvent.seconds : List FloodEvent → Nat
  | [] => 0
  | FloodEvent.second :: es => FloodEvent.seconds es + 1
  | FloodEvent.message _ _ :: es => FloodEvent.seconds es

/-- The message triggers the flood limit on the record: the two tests of
`FloodFilterMessage` that lead to the start of a timeout both pass. -/
def Triggers (env : Env) (ip : Nat) (r : ClientSpamStats) (m : ChatMessage) : Prop :=
  r.TimeoutSeconds ≤ 0 ∧
    toInt32 (r.SpamScore + CalculateSpamScore env ip r m) ≥ toInt32 env.cfg.FloodTimeoutScore

instance (env : Env) (ip : Nat) (r : ClientSpamStats) (m : ChatMessage) :
    Decidable (Triggers env ip r m) := by
  unfold Triggers
  infer_instance

/-- No message of the list, evaluated in its turn, triggers the flood limit for the
address `ip`. -/
def FloodEvent.Quiet (env : Env) (session : Session) (ip : Nat) :
    SpamTable → List FloodEvent → Prop
  | _, [] => True
  | t, FloodEvent.second :: es => FloodEvent.Quiet env session ip (Tick.pass t) es
  | t, FloodEvent.message peer m :: es =>
    (session.GetPeerAddress peer = ip →
      ¬ Triggers env ip ((t ip).getD ClientSpamStats.new) m) ∧
    FloodEvent.Quiet env session ip (FloodFilterMessage env t session peer m).SpamStats es

instance FloodEvent.decidableQuiet (env : Env) (session : Session) (ip : Nat) :
    (t : SpamTable) → (es : List FloodEvent) → Decidable (FloodEvent.Quiet env session ip t es)
  | _, [] => isTrue trivial
  | t, FloodEvent.second :: es => FloodEvent.decidableQuiet env session ip (Tick.pass t) es
  | t, FloodEvent.message peer m :: es =>
    @instDecidableAnd _ _ inferInstance
      (FloodEvent.decidableQuiet env session ip
        (FloodFilterMessage env t session peer m).SpamStats es)

/-- The timeout fields of the record of an address `j` seconds after a timeout of `D`
seconds with reset window `R` started with pending length `D`: the timeout is served
first, then the reset window runs, then the escalation is forgotten (and the record may be
gone). -/
def EscalationState (D R j : Nat) (o : Option ClientSpamStats) : Prop :=
  if j < D then
    ∃ r, o = some r ∧ r.TimeoutSeconds = (D : Int) - j ∧ r.TimeoutResetSeconds = R ∧
      (0 < R ∨ j = 0 → r.NextTimeoutSeconds = D)
  else if j < D + R then
    ∃ r, o = some r ∧ r.TimeoutSeconds = 0 ∧ r.TimeoutResetSeconds = (D : Int) + R - j ∧
      r.NextTimeoutSeconds = D
  else
    (o.getD ClientSpamStats.new).TimeoutSeconds = 0 ∧
    (o.getD ClientSpamStats.new).TimeoutResetSeconds = 0 ∧
    (o.getD ClientSpamStats.new).NextTimeoutSeconds = 0

/-! ## The spec's wording, for comparison with the code -/

/-- The per-second transition in the words of the spec, steps 1 to 4 in sequence: the score
and the timeout are decremented down to 0; "if `timeoutSeconds == 0`", read after the
decrement, the reset clock is decremented down to 0; "if `timeoutResetSeconds == 0`" the
pending length is forgotten. -/
def TickSpec.steps (r : ClientSpamStats) : ClientSpamStats :=
  let r := { r with SpamScore := max 0 (r.SpamScore - 1) }
  let r := { r with TimeoutSeconds := max 0 (r.TimeoutSeconds - 1) }
  let r :=
    if r.TimeoutSeconds = 0 then
      { r with TimeoutResetSeconds := max 0 (r.TimeoutResetSeconds - 1) }
    else r
  if r.TimeoutResetSeconds = 0 then { r with NextTimeoutSeconds := 0 } else r

/-- The same four steps, with step 3 reading the `timeoutSeconds` the pass started with
instead of the decremented one. -/
def TickSpec.stepsFromStart (r : ClientSpamStats) : ClientSpamStats :=
  let timeoutAtStart := r.TimeoutSeconds
  let r := { r with SpamScore := max 0 (r.SpamScore - 1) }
  let r := { r with TimeoutSeconds := max 0 (r.TimeoutSeconds - 1) }
  let r :=
    if timeoutAtStart = 0 then
      { r with TimeoutResetSeconds := max 0 (r.TimeoutResetSeconds - 1) }
    else r
  if r.TimeoutResetSeconds = 0 then { r with NextTimeoutSeconds := 0 } else r

/-- The severity score in the words of the spec:
`shortScore + len(body) * (longScore + 1 - shortScore) / (MaxMessageLength + 1)`, with
unbounded integers and floor division. -/
def SeveritySpec (L : Limits) (shortScore longScore len : Nat) : Int :=
  (shortScore : Int) + (len : Int) * ((longScore : Int) + 1 - shortScore)
    / ((L.MaxMessageLength : Int) + 1)

/-- The peers the loops over the membership visit, in session order: the values of
`FindFirstPeer()` and `FindNextPeer(peer)` up to the first negative one. -/
def Session.Connected (session : Session) : List Int :=
  session.Peers.takeWhile fun peer => decide (0 ≤ peer)

/-- The delivery the spec gives one connected peer in a broadcast: nothing when the peer is
not in the destination set, the in-process `MessageReceived` callbacks of every handler in
registration order when it is the local peer, one transport send otherwise. -/
def BroadcastSpec.delivery (env : Env) (session : Session) (message : ChatMessage)
    (peers : PeerBitSet) (peer : Int) : List Effect :=
  if peers.test peer = true then
    if peer = session.LocalPeerIndex then
      (List.range env.chatHandlers.length).map fun i => Effect.MessageReceived i message
    else [Effect.PacketSend peer message]
  else []

/-- One turn of the first loop of `BroadcastMessage`: the handler is called on the message
and the `ignore` flag as they are, and leaves them as it likes. -/
def BroadcastMessage.step (senderPeer : Int) (st : ChatMessage × Bool) (h : ChatHandler) :
    ChatMessage × Bool :=
  h.MessageSent senderPeer st.1 st.2

/-- The message and the `ignore` flag as the first `i` handlers of the list leave them. -/
def BroadcastMessage.stateAfter (hs : List ChatHandler) (i : Nat) (senderPeer : Int)
    (message : ChatMessage) (ignore : Bool) : ChatMessage × Bool :=
  (hs.take i).foldl (BroadcastMessage.step senderPeer) (message, ignore)

/-! ## A sample session -/

/-- A host session with three connected peers, 0 (the local peer, the host), 1 and 2, and no
teams; the player of peer `p` is player `p`, named "A", "B", "C". -/
def Sample.session : Session where
  IsHost := true
  IsEstablished := true
  HasTeams := false
  LocalPeerIndex := 0
  HostPeerIndex := 0
  Peers := [0, 1, 2]
  GetPeerTeam := fun _ => -1
  GetPeerPlayer := fun p => p
  DisplayName := fun p => [65 + p.toNat]
  Uid := fun p => 7000 + p.toNat
  GetPeerAddress := fun p => 167772160 + p.toNat

/-- Server variables: flood filter on (scores 2 to 5, timeout at score 10 for 120 seconds,
reset after 1800 seconds), chat log on. -/
def Sample.cfg : ServerConfig where
  FloodFilterEnabled := 1
  FloodMessageScoreShort := 2
  FloodMessageScoreLong := 5
  FloodTimeoutScore := 10
  FloodTimeoutSeconds := 120
  FloodTimeoutResetSeconds := 1800
  ChatLogEnabled := 1
  ChatLogOpens := true

/-- The surroundings of the sample session, with no handler registered. -/
def Sample.env : Env where
  L := ⟨128, 16⟩
  cfg := Sample.cfg
  chatHandlers := []
  ActiveSession := some Sample.session

/-- The surroundings of the sample session with a quick flood filter: every message scores
2 or more and the limit is 2, the default timeout is 2 seconds, the reset window 3 seconds. -/
def Sample.quick : Env where
  L := ⟨128, 16⟩
  cfg := { Sample.cfg with
    FloodTimeoutScore := 2
    FloodTimeoutSeconds := 2
    FloodTimeoutResetSeconds := 3 }
  chatHandlers := []
  ActiveSession := some Sample.session

/-- A handler that vetoes every message. -/
def Sample.vetoes : ChatHandler := ⟨fun _ message _ => (message, true)⟩

/-- A handler that clears the `ignore` flag of every message. -/
def Sample.clears : ChatHandler := ⟨fun _ message _ => (message, false)⟩

/-- A handler that leaves message and flag as they are. -/
def Sample.watches : ChatHandler := ⟨fun _ message ignore => (message, ignore)⟩

/-- The sample surroundings with two handlers: the first vetoes, the second clears the
flag. -/
def Sample.vetoCleared : Env := { Sample.env with chatHandlers := [Sample.vetoes, Sample.clears] }

/-- The sample surroundings with two handlers: the first vetoes, the second only watches. -/
def Sample.vetoWatched : Env := { Sample.env with chatHandlers := [Sample.vetoes, Sample.watches] }

/-- The sample session with two teams: peers 0 and 2 are on team 0, peer 1 on team 1. -/
def Sample.teams : Session := { Sample.session with
  HasTeams := true
  GetPeerTeam := fun p => if p = 1 then 1 else 0 }

/-- The sample surroundings with a steep score scale: a short message scores 0, a long one
33554432 (`2 ^ 25`). -/
def Sample.steep : Env := { Sample.env with
  cfg := { Sample.cfg with
    FloodMessageScoreShort := 0
    FloodMessageScoreLong := 33554432 } }

/-- The sample surroundings with one handler, which only watches. -/
def Sample.watched : Env := { Sample.env with chatHandlers := [Sample.watches] }

/-- The sample surroundings with the flood limit configured as 4294967295, which does not
fit an `int`. -/
def Sample.hugeLimit : Env := { Sample.env with
  cfg := { Sample.cfg with FloodTimeoutScore := 4294967295 } }

/-- The quick flood filter (limit 2, default timeout 2 seconds) with the reset window
configured as 4294967295 seconds, which does not fit an `int`. -/
def Sample.longWindow : Env := { Sample.quick with
  cfg := { Sample.quick.cfg with FloodTimeoutResetSeconds := 4294967295 } }

/-- The empty flood table. -/
def SpamTable.empty : SpamTable := fun _ => Option.none

/-- A flood table in which the address of peer 1 of the sample session has score 9, no
running timeout, a pending timeout length of 120 seconds and 500 seconds of reset window. -/
def Sample.table : SpamTable := SpamTable.empty.store 167772161 ⟨9, 0, 120, 500⟩

/-- A flood table in which the address of peer 1 of the sample session is serving a timeout
with 57 seconds left. -/
def Sample.timedOut : SpamTable := SpamTable.empty.store 167772161 ⟨4, 57, 120, 1800⟩

/-! # Theorems -/

/-! ## Wire codec -/

theorem toBits_length (w v : Nat) : (toBits w v).length = w := by
  induction w generalizing v with
  | zero => rfl
  | succ w ih => simp [toBits, ih]

theorem ofBits_toBits (w v : Nat) : ofBits (toBits w v) = v % 2 ^ w := by
  induction w generalizing v with
  | zero => simp [toBits, ofBits, Nat.mod_one]
  | succ w ih =>
    simp only [toBits, ofBits, ih]
    have h2 : v % 2 ^ (w + 1) = v % 2 + 2 * (v / 2 % 2 ^ w) := by
      rw [pow_succ', Nat.mod_mul]
    rw [h2]
    rcases Nat.mod_two_eq_zero_or_one v with h | h <;> simp [h]

theorem take_toBits_append (w v : Nat) (rest : List Bool) :
    (toBits w v ++ rest).take w = toBits w v := by
  rw [List.take_append_of_le_length (by simp [toBits_length])]
  exact List.take_of_length_le (by simp [toBits_length])

theorem drop_toBits_append (w v : Nat) (rest : List Bool) :
    (toBits w v ++ rest).drop w = rest := by
  rw [List.drop_append_of_le_length (by simp [toBits_length])]
  simp [List.drop_of_length_le, toBits_length]

theorem ReadUnsigned_toBits (w v n : Nat) (rest : List Bool) (hv : v < 2 ^ w) :
    BitStream.ReadUnsigned ⟨toBits w v ++ rest, n⟩ w = (v, ⟨rest, n + 1⟩) := by
  simp [BitStream.ReadUnsigned, take_toBits_append, drop_toBits_append, ofBits_toBits,
    Nat.mod_eq_of_lt hv]

theorem ReadString_loop_stringBits (w : Nat) (str : List Nat) (room : Nat) (rest : List Bool)
    (hlen : str.length < room) (hc : ∀ c ∈ str, 0 < c ∧ c < 2 ^ w) :
    BitStream.ReadString.loop w room (BitStream.stringBits w str ++ rest) = (some str, rest) := by
  induction str generalizing room with
  | nil =>
    obtain ⟨room, rfl⟩ : ∃ r, room = r + 1 := ⟨room - 1, by simp at hlen; omega⟩
    simp [BitStream.ReadString.loop, BitStream.stringBits, take_toBits_append,
      drop_toBits_append, ofBits_toBits, toBits_length]
  | cons c cs ih =>
    obtain ⟨room, rfl⟩ : ∃ r, room = r + 1 := ⟨room - 1, by simp at hlen; omega⟩
    have hc0 := hc c (by simp)
    have hcs : ∀ d ∈ cs, 0 < d ∧ d < 2 ^ w := fun d hd => hc d (by simp [hd])
    have hroom : cs.length < room := by simp at hlen; omega
    have hne : c % 2 ^ w ≠ 0 := by rw [Nat.mod_eq_of_lt hc0.2]; omega
    have hne0 : c ≠ 0 := by omega
    simp [BitStream.ReadString.loop, BitStream.stringBits, List.append_assoc,
      take_toBits_append, drop_toBits_append, ofBits_toBits, toBits_length, hne, hne0,
      ih room hroom hcs, Nat.mod_eq_of_lt hc0.2]

theorem ReadString_stringBits (w size n : Nat) (str : List Nat) (rest : List Bool)
    (h : FitsString w size str) :
    BitStream.ReadString ⟨BitStream.stringBits w str ++ rest, n⟩ w size
      = (some str, ⟨rest, n + 1⟩) := by
  simp [BitStream.ReadString, ReadString_loop_stringBits w str size rest h.1 h.2]

open ChatMessageType in
/-- C1. Codec round trip: for every message whose type is Global, Team, Whisper or Server
and whose fields fit their storage, `Deserialize` applied to the stream written by
`Serialize` (followed by any further bits) succeeds, yields the same type and body, the
same sender when the type is not Server, the same target when the type is Whisper, and
leaves exactly the further bits unread. -/
theorem Deserialize_Serialize (L : Limits) (m : ChatMessage) (rest : List Bool) (n : Nat)
    (hty : m.MessageType < Count) (hfit : m.Fits L) :
    (Deserialize L ⟨(Serialize BitStream.empty m).bits ++ rest, n⟩).1 = true ∧
    (Deserialize L ⟨(Serialize BitStream.empty m).bits ++ rest, n⟩).2.1.MessageType
      = m.MessageType ∧
    (Deserialize L ⟨(Serialize BitStream.empty m).bits ++ rest, n⟩).2.1.Body = m.Body ∧
    (m.MessageType ≠ Server →
      (Deserialize L ⟨(Serialize BitStream.empty m).bits ++ rest, n⟩).2.1.Sender = m.Sender) ∧
    (m.MessageType = Whisper →
      (Deserialize L ⟨(Serialize BitStream.empty m).bits ++ rest, n⟩).2.1.Target = m.Target) ∧
    (Deserialize L ⟨(Serialize BitStream.empty m).bits ++ rest, n⟩).2.2.bits = rest := by
  obtain ⟨ty, body, sender, target⟩ := m
  obtain ⟨hb, hs, ht⟩ := hfit
  simp only at hty hb hs ht
  have hcb : CountBits 4 = 3 := by decide
  have key : ∀ (v : Nat) (tl : List Bool), v < 4 →
      BitStream.ReadUnsignedRange ⟨toBits 3 v ++ tl, n⟩ 0 4 = (v, ⟨tl, n + 1⟩) := by
    intro v tl hv
    simp [BitStream.ReadUnsignedRange, hcb, ReadUnsigned_toBits 3 v n tl (by omega)]
  simp only [Count] at hty
  have hbody := fun tl k => ReadString_stringBits 8 (L.MaxMessageLength + 1) k body tl hb
  have hsender := fun tl k => ReadString_stringBits 16 L.SenderSize k sender tl hs
  have htarget := fun tl k => ReadUnsigned_toBits 64 target k tl ht
  interval_cases ty <;>
    simp [Deserialize, Deserialize.target, Serialize, BitStream.empty,
      BitStream.WriteUnsignedRange, BitStream.WriteUnsigned, BitStream.WriteString, hcb,
      List.append_assoc, key, hbody, hsender, htarget, Count, Whisper, Server,
      ChatMessage.zeroed]

set_option maxRecDepth 100000 in
/-- Witness of C1: a Whisper message "hi" from "B" to target 77 survives the round trip. -/
theorem Deserialize_Serialize_witness :
    ((2 : Nat) < ChatMessageType.Count ∧
      ChatMessage.Fits ⟨128, 16⟩ ⟨2, [104, 105], [66], 77⟩) ∧
    (Deserialize ⟨128, 16⟩
      ⟨(Serialize BitStream.empty ⟨2, [104, 105], [66], 77⟩).bits ++ [], 0⟩).1 = true ∧
    (Deserialize ⟨128, 16⟩
      ⟨(Serialize BitStream.empty ⟨2, [104, 105], [66], 77⟩).bits ++ [], 0⟩).2.1.Body
      = [104, 105] :=
  ⟨by decide,
    (Deserialize_Serialize ⟨128, 16⟩ ⟨2, [104, 105], [66], 77⟩ [] 0 (by decide) (by decide)).1,
    (Deserialize_Serialize ⟨128, 16⟩ ⟨2, [104, 105], [66], 77⟩ [] 0 (by decide)
      (by decide)).2.2.1⟩

open ChatMessageType in
/-- C2. When the first field of the stream decodes to an ordinal `>= Count`, `Deserialize`
returns failure and the stream is left exactly as the read of the type left it: that read is
the only read operation performed, and body, sender and target stay zeroed. -/
theorem Deserialize_type_out_of_range (L : Limits) (stream : BitStream)
    (h : Count ≤ (stream.ReadUnsignedRange 0 Count).1) :
    (Deserialize L stream).1 = false ∧
    (Deserialize L stream).2.2 = (stream.ReadUnsignedRange 0 Count).2 ∧
    (Deserialize L stream).2.2.reads = stream.reads + 1 ∧
    (Deserialize L stream).2.2.bits = stream.bits.drop 3 ∧
    (Deserialize L stream).2.1.Body = [] ∧
    (Deserialize L stream).2.1.Sender = [] ∧
    (Deserialize L stream).2.1.Target = 0 := by
  have hcb : CountBits Count = 3 := by decide
  have h2 : Count ≤ ofBits (List.take 3 stream.bits) := by
    simpa [BitStream.ReadUnsignedRange, BitStream.ReadUnsigned, hcb] using h
  simp [Deserialize, BitStream.ReadUnsignedRange, BitStream.ReadUnsigned, hcb, h2,
    ChatMessage.zeroed]

/-- Witness of C2: the three bits `1 0 1` decode to the ordinal 5. -/
theorem Deserialize_type_out_of_range_witness :
    ChatMessageType.Count ≤
      (BitStream.ReadUnsignedRange ⟨[true, false, true, true, true], 0⟩ 0
        ChatMessageType.Count).1 ∧
    (Deserialize ⟨128, 16⟩ ⟨[true, false, true, true, true], 0⟩).1 = false ∧
    (Deserialize ⟨128, 16⟩ ⟨[true, false, true, true, true], 0⟩).2.2.reads = 0 + 1 :=
  ⟨by decide,
    (Deserialize_type_out_of_range ⟨128, 16⟩ ⟨[true, false, true, true, true], 0⟩
      (by decide)).1,
    (Deserialize_type_out_of_range ⟨128, 16⟩ ⟨[true, false, true, true, true], 0⟩
      (by decide)).2.2.1⟩

set_option maxRecDepth 100000 in
/-- C3. A Whisper message "hi" from "B" is written, and the stream is cut right after the
sender, so that none of the 64 bits of the target is left: `Deserialize` reads type, body and
sender, performs the unchecked read of the target and returns success with target 0. The
same cut one field earlier (inside the sender) is reported as a failure. -/
theorem Deserialize_truncated_target_succeeds :
    (Serialize BitStream.empty ⟨2, [104, 105], [66], 77⟩).bits.length = 3 + 24 + 32 + 64 ∧
    Deserialize ⟨128, 16⟩
      ⟨(Serialize BitStream.empty ⟨2, [104, 105], [66], 77⟩).bits.take (3 + 24 + 32), 0⟩
      = (true, ⟨2, [104, 105], [66], 0⟩, ⟨[], 4⟩) ∧
    (Deserialize ⟨128, 16⟩
      ⟨(Serialize BitStream.empty ⟨2, [104, 105], [66], 77⟩).bits.take (3 + 24 + 31), 0⟩).1
      = false := by
  decide

/-! ## Shapes of the effects -/

theorem handlers_effects (hs : List ChatHandler) (i : Nat) (p : Int) (m : ChatMessage)
    (g : Bool) :
    ∀ e ∈ (BroadcastMessage.handlers hs i p m g).2.2,
      ∃ j m' g', e = Effect.MessageSent j p m' g' ∧ i ≤ j ∧ (j = i → m' = m) := by
  induction hs generalizing i m g with
  | nil => simp [BroadcastMessage.handlers]
  | cons h hs ih =>
    intro e he
    simp only [BroadcastMessage.handlers, List.mem_cons] at he
    rcases he with rfl | he
    · exact ⟨i, m, g, rfl, le_refl _, fun _ => rfl⟩
    · obtain ⟨j, m', g', rfl, hij, _⟩ := ih (i + 1) _ _ e he
      exact ⟨j, m', g', rfl, by omega, fun hji => by omega⟩

theorem loop_effects (env : Env) (session : Session) (m : ChatMessage) (peers : PeerBitSet)
    (ps : List Int) :
    ∀ e ∈ (BroadcastMessage.loop env session m peers ps).2,
      (∃ j, e = Effect.MessageReceived j m ∧ ∃ p ∈ ps, p = session.LocalPeerIndex ∧
        0 ≤ p ∧ peers.test p = true) ∨
      (∃ p ∈ ps, e = Effect.PacketSend p m ∧ 0 ≤ p ∧ peers.test p = true ∧
        p ≠ session.LocalPeerIndex) := by
  induction ps with
  | nil => simp [BroadcastMessage.loop]
  | cons q qs ih =>
    intro e he
    have lift : ((∃ j, e = Effect.MessageReceived j m ∧ ∃ p ∈ qs, p = session.LocalPeerIndex ∧
          0 ≤ p ∧ peers.test p = true) ∨
        (∃ p ∈ qs, e = Effect.PacketSend p m ∧ 0 ≤ p ∧ peers.test p = true ∧
          p ≠ session.LocalPeerIndex)) →
        ((∃ j, e = Effect.MessageReceived j m ∧ ∃ p ∈ q :: qs, p = session.LocalPeerIndex ∧
          0 ≤ p ∧ peers.test p = true) ∨
        (∃ p ∈ q :: qs, e = Effect.PacketSend p m ∧ 0 ≤ p ∧ peers.test p = true ∧
          p ≠ session.LocalPeerIndex)) := by
      rintro (⟨j, rfl, p, hp, h⟩ | ⟨p, hp, h⟩)
      · exact Or.inl ⟨j, rfl, p, List.mem_cons_of_mem _ hp, h⟩
      · exact Or.inr ⟨p, List.mem_cons_of_mem _ hp, h⟩
    simp only [BroadcastMessage.loop] at he
    split_ifs at he with hq ht hl hs
    · simp at he
    · exact lift (ih e he)
    · simp only [List.mem_append] at he
      rcases he with he | he
      · simp only [ClientReceivedMessage, List.mem_map] at he
        obtain ⟨j, _, rfl⟩ := he
        exact Or.inl ⟨j, rfl, q, by simp, hl, by omega, by simpa using ht⟩
      · exact lift (ih e he)
    · simp [SendMessagePacket, hq] at hs
    · simp only [SendMessagePacket, hq, if_false, List.mem_append, List.mem_singleton] at he
      rcases he with rfl | he
      · exact Or.inr ⟨q, by simp, rfl, by omega, by simpa using ht, hl⟩
      · exact lift (ih e he)

theorem loop_none (env : Env) (session : Session) (m : ChatMessage) (ps : List Int) :
    BroadcastMessage.loop env session m PeerBitSet.none ps = (true, []) := by
  induction ps with
  | nil => rfl
  | cons q qs ih =>
    unfold BroadcastMessage.loop
    by_cases hq : q < 0 <;> simp [hq, PeerBitSet.test, PeerBitSet.none, ih]

/-! ## Host side -/

theorem FloodFilterMessage_effects_of_accept (env : Env) (t : SpamTable) (session : Session)
    (peer : Int) (m : ChatMessage) (h : (FloodFilterMessage env t session peer m).result = false) :
    (FloodFilterMessage env t session peer m).effects = [] := by
  unfold FloodFilterMessage at h ⊢
  by_cases hts : (FloodFilterMessage.update env (session.GetPeerAddress peer)
      ((t (session.GetPeerAddress peer)).getD ClientSpamStats.new) m).TimeoutSeconds > 0
  · simp [hts] at h
  · simp [hts]

theorem GetTeamPeers_without_teams (session : Session) (peer : Int)
    (hno : session.HasTeams = false ∨ session.GetPeerTeam peer < 0) :
    GetTeamPeers session peer = (false, PeerBitSet.none) := by
  unfold GetTeamPeers
  rcases hno with h | h
  · simp [h]
  · by_cases ht : session.HasTeams = true <;> simp [ht, h]

theorem BroadcastMessage_none_effects (env : Env) (session : Session) (peer : Int)
    (b : ChatMessage) :
    ∀ e ∈ (BroadcastMessage env session peer b PeerBitSet.none).2,
      ∃ j m' g', e = Effect.MessageSent j peer m' g' := by
  intro e he
  unfold BroadcastMessage at he
  simp only [loop_none, List.append_nil] at he
  split_ifs at he with h1 h2
  · simp at he
  all_goals
    obtain ⟨j, m', g', rfl, _⟩ := handlers_effects _ _ _ _ _ e he
    exact ⟨j, m', g', rfl⟩

theorem LogMessage_effects (env : Env) (session : Session) (peer : Int) (b : ChatMessage) :
    ∀ e ∈ LogMessage env session peer b, ∃ l, e = Effect.Log l ∧ l.Sender = b.Sender := by
  intro e he
  unfold LogMessage at he
  split_ifs at he
  · simp at he
  · simp at he
  · simp only [List.mem_singleton] at he
    exact ⟨_, he, rfl⟩

open ChatMessageType in
/-- C4 as stated fails. In the sample session (no teams, log enabled) peer 1 sends the Team
message "hi": `HostReceivedMessage` reports success, and the line for the message has been
appended to the chat log. -/
theorem HostReceivedMessage_team_without_teams_counterexample :
    Sample.session.HasTeams = false ∧
    (HostReceivedMessage Sample.env SpamTable.empty Sample.session 1
      ⟨Team, [104, 105], [], 0⟩).result = true ∧
    (HostReceivedMessage Sample.env SpamTable.empty Sample.session 1
      ⟨Team, [104, 105], [], 0⟩).effects
      = [Effect.Log ⟨[66], 7001, 167772161, [104, 105]⟩] := by
  decide

open ChatMessageType in
/-- C4, amended. When the host receives a Team message while the session has no teams or the
team of the peer is unknown, and the flood filter does not throw the message out, the
destination set is empty: no `MessageReceived` callback runs and nothing is sent over the
transport. The log line is written before the destination set is computed: for a valid peer
(non-negative index, with a player) and a non-empty body the effects begin with what
`LogMessage` writes for the message with the recomputed sender. -/
theorem HostReceivedMessage_team_without_teams (env : Env) (t : SpamTable) (session : Session)
    (peer : Int) (message : ChatMessage)
    (hteam : message.MessageType = Team)
    (hno : session.HasTeams = false ∨ session.GetPeerTeam peer < 0)
    (hflood : peer = session.LocalPeerIndex ∨ env.cfg.FloodFilterEnabled = 0 ∨
      (FloodFilterMessage env t session peer
        (FillInSenderName env session peer message).2).result = false) :
    (GetMessagePeers session peer message PeerBitSet.none).2 = PeerBitSet.none ∧
    (∀ e ∈ (HostReceivedMessage env t session peer message).effects,
      (∀ i m, e ≠ Effect.MessageReceived i m) ∧ (∀ p m, e ≠ Effect.PacketSend p m)) ∧
    (0 ≤ peer → message.Body ≠ [] → 0 ≤ session.GetPeerPlayer peer →
      LogMessage env session peer (FillInSenderName env session peer message).2
        <+: (HostReceivedMessage env t session peer message).effects) := by
  have hpeers : GetMessagePeers session peer message PeerBitSet.none
      = (true, PeerBitSet.none) := by
    simp [GetMessagePeers, hteam, Team, Global, GetTeamPeers_without_teams session peer hno]
  have hfl : (HostReceivedMessage.floodCheck env t session peer
      (FillInSenderName env session peer message).2).result = false := by
    unfold HostReceivedMessage.floodCheck
    split_ifs with hc
    · rcases hflood with h | h | h
      · exact absurd h hc.1
      · exact absurd h hc.2
      · exact h
    · rfl
  have hdel : ∀ t', (HostReceivedMessage.deliver env t' session peer message
      (FillInSenderName env session peer message).2).effects
      = LogMessage env session peer (FillInSenderName env session peer message).2 ++
        (BroadcastMessage env session peer (FillInSenderName env session peer message).2
          PeerBitSet.none).2 := by
    intro t'
    simp [HostReceivedMessage.deliver, hpeers]
  refine ⟨by rw [hpeers], ?_, ?_⟩
  · intro e he
    unfold HostReceivedMessage at he
    simp only [hfl, Bool.false_eq_true, if_false] at he
    split_ifs at he with h1 h2
    · simp at he
    · simp at he
    · rw [hdel, List.mem_append] at he
      rcases he with he | he
      · obtain ⟨l, rfl, _⟩ := LogMessage_effects _ _ _ _ e he
        simp
      · obtain ⟨j, m', g', rfl⟩ := BroadcastMessage_none_effects _ _ _ _ e he
        simp
  · intro hp hb hpl
    have h1 : ¬(peer < 0 ∨ message.Body = [] ∨ message.MessageType = Server) := by
      rintro (h | h | h)
      · omega
      · exact hb h
      · rw [hteam] at h
        exact absurd h (by decide)
    have h2 : (FillInSenderName env session peer message).1 = true := by
      simp only [FillInSenderName]
      rw [if_neg (by omega)]
    unfold HostReceivedMessage
    simp only [hfl, h1, h2, if_false, Bool.not_true, Bool.false_eq_true, hdel]
    exact List.prefix_append _ _

open ChatMessageType in
/-- Witness of the amended C4, in the sample session with peer 1 and the Team message "hi". -/
theorem HostReceivedMessage_team_without_teams_witness :
    (GetMessagePeers Sample.session 1 ⟨Team, [104, 105], [], 0⟩ PeerBitSet.none).2
      = PeerBitSet.none ∧
    (∀ e ∈ (HostReceivedMessage Sample.env SpamTable.empty Sample.session 1
        ⟨Team, [104, 105], [], 0⟩).effects,
      (∀ i m, e ≠ Effect.MessageReceived i m) ∧ (∀ p m, e ≠ Effect.PacketSend p m)) ∧
    ((0 : Int) ≤ 1 → ([104, 105] : List Nat) ≠ [] → 0 ≤ Sample.session.GetPeerPlayer 1 →
      LogMessage Sample.env Sample.session 1
          (FillInSenderName Sample.env Sample.session 1 ⟨Team, [104, 105], [], 0⟩).2
        <+: (HostReceivedMessage Sample.env SpamTable.empty Sample.session 1
          ⟨Team, [104, 105], [], 0⟩).effects) :=
  HostReceivedMessage_team_without_teams Sample.env SpamTable.empty Sample.session 1
    ⟨Team, [104, 105], [], 0⟩ rfl (Or.inl rfl) (Or.inr (Or.inr (by decide)))

open ChatMessageType in
/-- C5. An inbound message whose peer index is negative, whose body is empty or whose declared
type is Server makes `HostReceivedMessage` return failure with nothing changed: the flood
table is the one it was given and there is no effect at all (no handler callback, no
transport send, no log line). -/
theorem HostReceivedMessage_rejects_invalid (env : Env) (t : SpamTable) (session : Session)
    (peer : Int) (message : ChatMessage)
    (h : peer < 0 ∨ message.Body = [] ∨ message.MessageType = Server) :
    (HostReceivedMessage env t session peer message).result = false ∧
    (HostReceivedMessage env t session peer message).SpamStats = t ∧
    (HostReceivedMessage env t session peer message).effects = [] := by
  unfold HostReceivedMessage
  rw [if_pos h]
  exact ⟨rfl, rfl, rfl⟩

open ChatMessageType in
/-- Witness of C5: peer 1 of the sample session claims to send as Server. -/
theorem HostReceivedMessage_rejects_invalid_witness :
    ((1 : Int) < 0 ∨ ([104, 105] : List Nat) = [] ∨
      (⟨Server, [104, 105], [], 0⟩ : ChatMessage).MessageType = Server) ∧
    (HostReceivedMessage Sample.env SpamTable.empty Sample.session 1
      ⟨Server, [104, 105], [], 0⟩).result = false ∧
    (HostReceivedMessage Sample.env SpamTable.empty Sample.session 1
      ⟨Server, [104, 105], [], 0⟩).SpamStats = SpamTable.empty ∧
    (HostReceivedMessage Sample.env SpamTable.empty Sample.session 1
      ⟨Server, [104, 105], [], 0⟩).effects = [] :=
  ⟨Or.inr (Or.inr rfl),
    HostReceivedMessage_rejects_invalid Sample.env SpamTable.empty Sample.session 1
      ⟨Server, [104, 105], [], 0⟩ (Or.inr (Or.inr rfl))⟩

theorem BroadcastMessage_effects (env : Env) (session : Session) (p : Int) (b : ChatMessage)
    (peers : PeerBitSet) :
    ∀ e ∈ (BroadcastMessage env session p b peers).2,
      (∃ j m' g', e = Effect.MessageSent j p m' g' ∧ (j = 0 → m' = b)) ∨
      (∃ j m', e = Effect.MessageReceived j m' ∧
        ∃ q ∈ session.Peers, q = session.LocalPeerIndex ∧ 0 ≤ q ∧ peers.test q = true) ∨
      (∃ q m', e = Effect.PacketSend q m' ∧ 0 ≤ q ∧ peers.test q = true ∧
        q ≠ session.LocalPeerIndex) := by
  intro e he
  have hh : ∀ e ∈ (BroadcastMessage.handlers env.chatHandlers 0 p b false).2.2,
      ∃ j m' g', e = Effect.MessageSent j p m' g' ∧ (j = 0 → m' = b) := by
    intro e he
    obtain ⟨j, m', g', rfl, _, h0⟩ := handlers_effects _ _ _ _ _ e he
    exact ⟨j, m', g', rfl, h0⟩
  simp only [BroadcastMessage] at he
  split_ifs at he with h1 h2
  · simp at he
  · exact Or.inl (hh e he)
  · rw [List.mem_append] at he
    rcases he with he | he
    · exact Or.inl (hh e he)
    · rcases loop_effects _ _ _ _ _ e he with ⟨j, rfl, hq⟩ | ⟨q, _, rfl, hq⟩
      · exact Or.inr (Or.inl ⟨j, _, rfl, hq⟩)
      · exact Or.inr (Or.inr ⟨q, _, rfl, hq⟩)

theorem SendServerMessage_effects (env : Env) (body : List Nat) (peers : PeerBitSet) :
    ∀ e ∈ (SendServerMessage env body peers).2,
      (∃ j p m' g', e = Effect.MessageSent j p m' g' ∧
        (j = 0 → m' = ChatMessage.new env.L ChatMessageType.Server body)) ∨
      (∃ j m', e = Effect.MessageReceived j m' ∧ ∃ session, env.ActiveSession = some session ∧
        ∃ q ∈ session.Peers, q = session.LocalPeerIndex ∧ 0 ≤ q ∧ peers.test q = true) ∨
      (∃ q m', e = Effect.PacketSend q m' ∧ 0 ≤ q ∧ peers.test q = true) := by
  intro e he
  unfold SendServerMessage at he
  cases hs : env.ActiveSession with
  | none => simp [hs] at he
  | some session =>
    simp only [hs] at he
    split_ifs at he with h1
    · simp at he
    · rcases BroadcastMessage_effects _ _ _ _ _ e he with ⟨j, m', g', rfl, h0⟩ |
        ⟨j, m', rfl, hq⟩ | ⟨q, m', rfl, hq⟩
      · exact Or.inl ⟨j, _, m', g', rfl, h0⟩
      · exact Or.inr (Or.inl ⟨j, m', rfl, session, rfl, hq⟩)
      · exact Or.inr (Or.inr ⟨q, m', rfl, hq.1, hq.2.1⟩)

theorem FloodFilterMessage_effects (env : Env) (t : SpamTable) (session : Session)
    (peer : Int) (m : ChatMessage) :
    (FloodFilterMessage env t session peer m).effects = [] ∨
    ∃ ts, (FloodFilterMessage env t session peer m).effects
      = (SendServerMessage env (FloodFilterMessage.notice ts) (PeerBitSet.none.set peer)).2 := by
  unfold FloodFilterMessage
  simp only
  split_ifs
  · exact Or.inr ⟨_, rfl⟩
  · exact Or.inl rfl

theorem ChatMessage_new_type (L : Limits) (ty : ChatMessageType) (body : List Nat) :
    (ChatMessage.new L ty body).MessageType = ty := rfl

/-! ## Flood filter -/

theorem toInt32_of_in (x : Int) (h : InInt32 x) : toInt32 x = x := by
  unfold toInt32
  unfold InInt32 at h
  omega

theorem toInt32_natCast (n : Nat) (h : n < 2 ^ 31) : toInt32 (n : Int) = n := by
  apply toInt32_of_in
  unfold InInt32
  omega

theorem SpamTable.store_same (t : SpamTable) (ip : Nat) (r : ClientSpamStats) :
    t.store ip r ip = some r := by
  simp [SpamTable.store]

theorem SpamTable.store_other (t : SpamTable) (ip k : Nat) (r : ClientSpamStats) (h : k ≠ ip) :
    t.store ip r k = t k := by
  simp [SpamTable.store, h]

theorem FloodFilterMessage_table (env : Env) (t : SpamTable) (session : Session) (peer : Int)
    (m : ChatMessage) :
    (FloodFilterMessage env t session peer m).SpamStats
      = t.store (session.GetPeerAddress peer)
        (FloodFilterMessage.update env (session.GetPeerAddress peer)
          ((t (session.GetPeerAddress peer)).getD ClientSpamStats.new) m) := by
  unfold FloodFilterMessage
  simp only
  split_ifs <;> rfl

theorem FloodFilterMessage_result (env : Env) (t : SpamTable) (session : Session) (peer : Int)
    (m : ChatMessage) :
    (FloodFilterMessage env t session peer m).result = true ↔
      (FloodFilterMessage.update env (session.GetPeerAddress peer)
        ((t (session.GetPeerAddress peer)).getD ClientSpamStats.new) m).TimeoutSeconds > 0 := by
  unfold FloodFilterMessage
  simp only
  split_ifs with h <;> simp [h]

theorem FloodFilterMessage_update_eq (env : Env) (ip : Nat) (r : ClientSpamStats)
    (message : ChatMessage)
    (hts : r.TimeoutSeconds ≤ 0)
    (hsum : InInt32 (r.SpamScore + CalculateSpamScore env ip r message))
    (hdouble : InInt32 (r.NextTimeoutSeconds * 2))
    (hT : env.cfg.FloodTimeoutScore < 2 ^ 31)
    (hD : env.cfg.FloodTimeoutSeconds < 2 ^ 31)
    (hR : env.cfg.FloodTimeoutResetSeconds < 2 ^ 31) :
    FloodFilterMessage.update env ip r message =
      if r.SpamScore + CalculateSpamScore env ip r message ≥ env.cfg.FloodTimeoutScore then
        if r.NextTimeoutSeconds > 0 then
          ⟨r.SpamScore + CalculateSpamScore env ip r message, r.NextTimeoutSeconds * 2,
            r.NextTimeoutSeconds * 2, env.cfg.FloodTimeoutResetSeconds⟩
        else
          ⟨r.SpamScore + CalculateSpamScore env ip r message, env.cfg.FloodTimeoutSeconds,
            env.cfg.FloodTimeoutSeconds, env.cfg.FloodTimeoutResetSeconds⟩
      else
        ⟨r.SpamScore + CalculateSpamScore env ip r message, r.TimeoutSeconds,
          r.NextTimeoutSeconds, r.TimeoutResetSeconds⟩ := by
  unfold FloodFilterMessage.update
  simp only [hts, if_true, toInt32_of_in _ hsum, toInt32_of_in _ hdouble, toInt32_natCast _ hT,
    toInt32_natCast _ hD, toInt32_natCast _ hR]
  by_cases h1 : r.SpamScore + CalculateSpamScore env ip r message ≥ env.cfg.FloodTimeoutScore
  · by_cases h2 : r.NextTimeoutSeconds > 0
    · simp only [h1, h2, if_true]
    · simp only [h1, h2, if_true, if_false]
  · simp only [h1, if_false]

/-- C7, amended. Per-message evaluation on a record with `TimeoutSeconds <= 0` (the record of
the address, or a fresh one), when the configured limit, default length and reset window
fit an `int` (are below `2 ^ 31`) and the `int` addition and doubling do not overflow: the score of the message is added to `SpamScore`; if the new
score reaches `FloodTimeoutScore`, `NextTimeoutSeconds` becomes twice its value when that was
positive and the configured default length otherwise, `TimeoutSeconds` becomes the new
`NextTimeoutSeconds` and `TimeoutResetSeconds` the configured reset window; below the
threshold those three fields are unchanged; the message is thrown out if and only if
`TimeoutSeconds > 0` afterwards. Records of other addresses are untouched. -/
theorem FloodFilterMessage_evaluation (env : Env) (t : SpamTable) (session : Session)
    (peer : Int) (message : ChatMessage) (r r' : ClientSpamStats) (score : Int)
    (hr : r = (t (session.GetPeerAddress peer)).getD ClientSpamStats.new)
    (hscore : score = CalculateSpamScore env (session.GetPeerAddress peer) r message)
    (hr' : r' = FloodFilterMessage.update env (session.GetPeerAddress peer) r message)
    (hts : r.TimeoutSeconds ≤ 0)
    (hsum : InInt32 (r.SpamScore + score))
    (hdouble : InInt32 (r.NextTimeoutSeconds * 2))
    (hT : env.cfg.FloodTimeoutScore < 2 ^ 31)
    (hD : env.cfg.FloodTimeoutSeconds < 2 ^ 31)
    (hR : env.cfg.FloodTimeoutResetSeconds < 2 ^ 31) :
    (FloodFilterMessage env t session peer message).SpamStats (session.GetPeerAddress peer)
      = some r' ∧
    (∀ k, k ≠ session.GetPeerAddress peer →
      (FloodFilterMessage env t session peer message).SpamStats k = t k) ∧
    r'.SpamScore = r.SpamScore + score ∧
    (r'.SpamScore ≥ env.cfg.FloodTimeoutScore →
      r'.NextTimeoutSeconds = (if r.NextTimeoutSeconds > 0 then 2 * r.NextTimeoutSeconds
        else env.cfg.FloodTimeoutSeconds) ∧
      r'.TimeoutSeconds = r'.NextTimeoutSeconds ∧
      r'.TimeoutResetSeconds = env.cfg.FloodTimeoutResetSeconds) ∧
    (r'.SpamScore < env.cfg.FloodTimeoutScore →
      r'.NextTimeoutSeconds = r.NextTimeoutSeconds ∧
      r'.TimeoutSeconds = r.TimeoutSeconds ∧
      r'.TimeoutResetSeconds = r.TimeoutResetSeconds) ∧
    ((FloodFilterMessage env t session peer message).result = true ↔ r'.TimeoutSeconds > 0) := by
  have hres := FloodFilterMessage_result env t session peer message
  have htab := FloodFilterMessage_table env t session peer message
  rw [← hr, ← hr'] at hres htab
  rw [hscore] at hsum ⊢
  have hu := FloodFilterMessage_update_eq env _ r message hts hsum hdouble hT hD hR
  rw [← hr'] at hu
  refine ⟨by rw [htab, SpamTable.store_same],
    fun k hk => by rw [htab, SpamTable.store_other _ _ _ _ hk], ?_, ?_, ?_, hres⟩
  all_goals
    by_cases h1 : r.SpamScore + CalculateSpamScore env (session.GetPeerAddress peer) r message
        ≥ env.cfg.FloodTimeoutScore <;>
    by_cases h2 : r.NextTimeoutSeconds > 0 <;>
    simp only [h1, h2, if_true, if_false] at hu <;>
    subst hu <;>
    dsimp only <;>
    (try rw [if_pos h2]) <;>
    (try rw [if_neg h2]) <;>
    first
      | rfl
      | (intro hh; omega)

/-- Witness of the amended C7: the address of peer 1 has score 9 and a pending length of 120 seconds; the
message "hi" scores 2, reaches the threshold 10 and starts a timeout of 240 seconds. -/
theorem FloodFilterMessage_evaluation_witness :
    (InInt32 (9 + 2) ∧ InInt32 (120 * 2)) ∧
    (FloodFilterMessage Sample.env Sample.table Sample.session 1
      ⟨0, [104, 105], [66], 0⟩).SpamStats (Sample.session.GetPeerAddress 1)
      = some ⟨11, 240, 240, 1800⟩ ∧
    ((FloodFilterMessage Sample.env Sample.table Sample.session 1
      ⟨0, [104, 105], [66], 0⟩).result = true ↔
      (⟨11, 240, 240, 1800⟩ : ClientSpamStats).TimeoutSeconds > 0) :=
  ⟨by decide,
    (FloodFilterMessage_evaluation Sample.env Sample.table Sample.session 1
      ⟨0, [104, 105], [66], 0⟩ ⟨9, 0, 120, 500⟩ ⟨11, 240, 240, 1800⟩ 2 (by decide) (by decide)
      (by decide) (by decide) (by decide) (by decide) (by decide) (by decide) (by decide)).1,
    (FloodFilterMessage_evaluation Sample.env Sample.table Sample.session 1
      ⟨0, [104, 105], [66], 0⟩ ⟨9, 0, 120, 500⟩ ⟨11, 240, 240, 1800⟩ 2 (by decide) (by decide)
      (by decide) (by decide) (by decide) (by decide) (by decide) (by decide)
      (by decide)).2.2.2.2.2⟩

theorem FloodFilterMessage_update_in_timeout (env : Env) (ip : Nat) (r : ClientSpamStats)
    (m : ChatMessage) (hts : r.TimeoutSeconds > 0) :
    FloodFilterMessage.update env ip r m = r := by
  unfold FloodFilterMessage.update
  rw [if_neg (by omega)]

/-- C8. When the record of the address has `TimeoutSeconds > 0` at call time,
`FloodFilterMessage` throws the message out whatever its body, leaves the flood table as it
was (the four fields of the record included) and sends the notice that quotes exactly that
`TimeoutSeconds` value to the peer. -/
theorem FloodFilterMessage_in_timeout (env : Env) (t : SpamTable) (session : Session)
    (peer : Int) (message : ChatMessage) (r : ClientSpamStats)
    (hr : t (session.GetPeerAddress peer) = some r) (hts : r.TimeoutSeconds > 0) :
    (FloodFilterMessage env t session peer message).result = true ∧
    (FloodFilterMessage env t session peer message).SpamStats = t ∧
    (FloodFilterMessage env t session peer message).SpamStats (session.GetPeerAddress peer)
      = some r ∧
    (FloodFilterMessage env t session peer message).effects
      = (SendServerMessage env (FloodFilterMessage.notice r.TimeoutSeconds)
          (PeerBitSet.none.set peer)).2 ∧
    FloodFilterMessage.notice r.TimeoutSeconds
      = chars "You have exceeded the server's spam limit. You can chat again in "
        ++ to_string r.TimeoutSeconds ++ chars " second(s)." := by
  have hu : FloodFilterMessage.update env (session.GetPeerAddress peer)
      ((t (session.GetPeerAddress peer)).getD ClientSpamStats.new) message = r := by
    rw [hr]
    exact FloodFilterMessage_update_in_timeout env _ r message hts
  have htab : (FloodFilterMessage env t session peer message).SpamStats = t := by
    rw [FloodFilterMessage_table, hu]
    funext k
    by_cases hk : k = session.GetPeerAddress peer
    · rw [hk, SpamTable.store_same, hr]
    · rw [SpamTable.store_other _ _ _ _ hk]
  refine ⟨?_, htab, by rw [htab, hr], ?_, rfl⟩
  · rw [FloodFilterMessage_result, hu]
    exact hts
  · unfold FloodFilterMessage
    simp only [hu, hts, if_true]

/-- Witness of C8: the address of peer 1 has 57 seconds of timeout left. -/
theorem FloodFilterMessage_in_timeout_witness :
    (Sample.timedOut (Sample.session.GetPeerAddress 1) = some ⟨4, 57, 120, 1800⟩ ∧
      (⟨4, 57, 120, 1800⟩ : ClientSpamStats).TimeoutSeconds > 0) ∧
    (FloodFilterMessage Sample.env Sample.timedOut Sample.session 1
      ⟨0, [104, 105], [66], 0⟩).result = true ∧
    (FloodFilterMessage Sample.env Sample.timedOut Sample.session 1
      ⟨0, [104, 105], [66], 0⟩).SpamStats = Sample.timedOut :=
  ⟨by decide,
    (FloodFilterMessage_in_timeout Sample.env Sample.timedOut Sample.session 1
      ⟨0, [104, 105], [66], 0⟩ ⟨4, 57, 120, 1800⟩ (by decide) (by decide)).1,
    (FloodFilterMessage_in_timeout Sample.env Sample.timedOut Sample.session 1
      ⟨0, [104, 105], [66], 0⟩ ⟨4, 57, 120, 1800⟩ (by decide) (by decide)).2.1⟩

/-! ## Escalation -/

theorem FloodFilterMessage_update_of_triggers (env : Env) (ip : Nat) (r : ClientSpamStats)
    (m : ChatMessage) (h : Triggers env ip r m) :
    (FloodFilterMessage.update env ip r m).TimeoutSeconds
      = (if r.NextTimeoutSeconds > 0 then toInt32 (r.NextTimeoutSeconds * 2)
        else toInt32 env.cfg.FloodTimeoutSeconds) ∧
    (FloodFilterMessage.update env ip r m).NextTimeoutSeconds
      = (if r.NextTimeoutSeconds > 0 then toInt32 (r.NextTimeoutSeconds * 2)
        else toInt32 env.cfg.FloodTimeoutSeconds) ∧
    (FloodFilterMessage.update env ip r m).TimeoutResetSeconds
      = toInt32 env.cfg.FloodTimeoutResetSeconds := by
  unfold FloodFilterMessage.update
  rw [if_pos h.1]
  dsimp only
  rw [if_pos h.2]
  split_ifs <;> exact ⟨rfl, rfl, rfl⟩

theorem FloodFilterMessage_update_of_not_triggers (env : Env) (ip : Nat) (r : ClientSpamStats)
    (m : ChatMessage) (h : ¬ Triggers env ip r m) :
    (FloodFilterMessage.update env ip r m).TimeoutSeconds = r.TimeoutSeconds ∧
    (FloodFilterMessage.update env ip r m).NextTimeoutSeconds = r.NextTimeoutSeconds ∧
    (FloodFilterMessage.update env ip r m).TimeoutResetSeconds = r.TimeoutResetSeconds := by
  unfold FloodFilterMessage.update
  by_cases h1 : r.TimeoutSeconds ≤ 0
  · have h2 : ¬ toInt32 (r.SpamScore + CalculateSpamScore env ip r m)
        ≥ toInt32 env.cfg.FloodTimeoutScore := fun h2 => h ⟨h1, h2⟩
    rw [if_pos h1]
    dsimp only
    rw [if_neg h2]
    exact ⟨rfl, rfl, rfl⟩
  · rw [if_neg h1]
    exact ⟨rfl, rfl, rfl⟩

theorem Tick_record_SpamScore (r : ClientSpamStats) :
    (Tick.record r).SpamScore = if r.SpamScore > 0 then r.SpamScore - 1 else r.SpamScore := by
  unfold Tick.record
  dsimp only
  split_ifs <;> rfl

theorem Tick_record_TimeoutSeconds (r : ClientSpamStats) :
    (Tick.record r).TimeoutSeconds
      = if r.TimeoutSeconds > 0 then r.TimeoutSeconds - 1 else r.TimeoutSeconds := by
  unfold Tick.record
  dsimp only
  split_ifs <;> rfl

theorem Tick_record_TimeoutResetSeconds (r : ClientSpamStats) :
    (Tick.record r).TimeoutResetSeconds
      = if r.TimeoutSeconds > 0 then r.TimeoutResetSeconds
        else if r.TimeoutResetSeconds > 0 then r.TimeoutResetSeconds - 1
        else r.TimeoutResetSeconds := by
  unfold Tick.record
  dsimp only
  split_ifs <;> rfl

theorem Tick_record_NextTimeoutSeconds (r : ClientSpamStats) :
    (Tick.record r).NextTimeoutSeconds
      = if (Tick.record r).TimeoutResetSeconds = 0 then 0 else r.NextTimeoutSeconds := by
  unfold Tick.record
  dsimp only
  split_ifs <;> rfl

theorem Tick_erases_iff (r : ClientSpamStats) :
    Tick.erases r = true ↔
      r.TimeoutSeconds ≤ 0 ∧ r.SpamScore ≤ 0 ∧ r.TimeoutResetSeconds ≤ 0 := by
  simp [Tick.erases, and_assoc]

theorem Tick_pass_apply (t : SpamTable) (ip : Nat) :
    Tick.pass t ip = match t ip with
      | Option.none => Option.none
      | some r => if Tick.erases (Tick.record r) then Option.none else some (Tick.record r) :=
  rfl

theorem EscalationState_forgotten (b : Bool) (r : ClientSpamStats)
    (hT : r.TimeoutSeconds = 0) (hR : r.TimeoutResetSeconds = 0)
    (hN : r.NextTimeoutSeconds = 0) :
    ((if b = true then Option.none else some r).getD ClientSpamStats.new).TimeoutSeconds = 0 ∧
    ((if b = true then Option.none else some r).getD
      ClientSpamStats.new).TimeoutResetSeconds = 0 ∧
    ((if b = true then Option.none else some r).getD
      ClientSpamStats.new).NextTimeoutSeconds = 0 := by
  cases b <;> simp [ClientSpamStats.new, hT, hR, hN]

theorem EscalationState_second (D R j : Nat) (t : SpamTable) (ip : Nat)
    (h : EscalationState D R j (t ip)) : EscalationState D R (j + 1) (Tick.pass t ip) := by
  rw [Tick_pass_apply]
  unfold EscalationState at h ⊢
  have hT := fun r => Tick_record_TimeoutSeconds r
  have hR := fun r => Tick_record_TimeoutResetSeconds r
  have hN := fun r => Tick_record_NextTimeoutSeconds r
  have hE := fun r => Tick_erases_iff (Tick.record r)
  by_cases h1 : j < D
  · rw [if_pos h1] at h
    obtain ⟨r, ho, hts, hrs, hnx⟩ := h
    rw [ho]
    have hT' : (Tick.record r).TimeoutSeconds = (D : Int) - j - 1 := by
      rw [hT, if_pos (by omega)]; omega
    have hR' : (Tick.record r).TimeoutResetSeconds = R := by
      rw [hR, if_pos (by omega)]; exact hrs
    by_cases h2 : j + 1 < D
    · rw [if_pos h2]
      have hne : ¬ Tick.erases (Tick.record r) = true := by
        rw [hE]; omega
      simp only [hne, if_false]
      refine ⟨_, rfl, by rw [hT']; omega, hR', ?_⟩
      intro hR0
      rw [hN, hR', if_neg (by omega)]
      exact hnx (Or.inl (by omega))
    · rw [if_neg h2]
      by_cases h3 : j + 1 < D + R
      · rw [if_pos h3]
        have hne : ¬ Tick.erases (Tick.record r) = true := by
          rw [hE]; omega
        simp only [hne, if_false]
        refine ⟨_, rfl, by rw [hT']; omega, by rw [hR']; omega, ?_⟩
        rw [hN, hR', if_neg (by omega)]
        exact hnx (Or.inl (by omega))
      · rw [if_neg h3]
        have hN' : (Tick.record r).NextTimeoutSeconds = 0 := by
          rw [hN, hR', if_pos (by omega)]
        exact EscalationState_forgotten _ _ (by rw [hT']; omega) (by rw [hR']; omega) hN'
  · rw [if_neg h1] at h
    rw [if_neg (by omega)]
    by_cases h2 : j < D + R
    · rw [if_pos h2] at h
      obtain ⟨r, ho, hts, hrs, hnx⟩ := h
      rw [ho]
      have hT' : (Tick.record r).TimeoutSeconds = 0 := by
        rw [hT, if_neg (by omega)]; exact hts
      have hR' : (Tick.record r).TimeoutResetSeconds = (D : Int) + R - j - 1 := by
        rw [hR, if_neg (by omega), if_pos (by omega)]; omega
      by_cases h3 : j + 1 < D + R
      · rw [if_pos h3]
        have hne : ¬ Tick.erases (Tick.record r) = true := by
          rw [hE]; omega
        simp only [hne, if_false]
        refine ⟨_, rfl, hT', by rw [hR']; omega, ?_⟩
        rw [hN, hR', if_neg (by omega)]
        exact hnx
      · rw [if_neg h3]
        have hN' : (Tick.record r).NextTimeoutSeconds = 0 := by
          rw [hN, hR', if_pos (by omega)]
        exact EscalationState_forgotten _ _ hT' (by rw [hR']; omega) hN'
    · rw [if_neg h2] at h
      rw [if_neg (by omega)]
      cases ho : t ip with
      | none => simp [ClientSpamStats.new]
      | some r =>
        rw [ho] at h
        simp only [Option.getD_some] at h
        obtain ⟨hts, hrs, hnx⟩ := h
        have hT' : (Tick.record r).TimeoutSeconds = 0 := by
          rw [hT, if_neg (by omega)]; exact hts
        have hR' : (Tick.record r).TimeoutResetSeconds = 0 := by
          rw [hR, if_neg (by omega), if_neg (by omega)]; exact hrs
        have hN' : (Tick.record r).NextTimeoutSeconds = 0 := by
          rw [hN, hR', if_pos rfl]
        exact EscalationState_forgotten _ _ hT' hR' hN'

theorem EscalationState_congr (D R j : Nat) (o : Option ClientSpamStats)
    (r' : ClientSpamStats)
    (hT : r'.TimeoutSeconds = (o.getD ClientSpamStats.new).TimeoutSeconds)
    (hN : r'.NextTimeoutSeconds = (o.getD ClientSpamStats.new).NextTimeoutSeconds)
    (hR : r'.TimeoutResetSeconds = (o.getD ClientSpamStats.new).TimeoutResetSeconds)
    (h : EscalationState D R j o) : EscalationState D R j (some r') := by
  unfold EscalationState at h ⊢
  split_ifs at h ⊢ with h1 h2
  · obtain ⟨r, rfl, h⟩ := h
    simp only [Option.getD_some] at hT hN hR
    exact ⟨r', rfl, by rw [hT, hN, hR]; exact h⟩
  · obtain ⟨r, rfl, h⟩ := h
    simp only [Option.getD_some] at hT hN hR
    exact ⟨r', rfl, by rw [hT, hN, hR]; exact h⟩
  · simp only [Option.getD_some]
    rw [hT, hN, hR]
    exact h

theorem EscalationState_message (env : Env) (session : Session) (peer : Int) (m : ChatMessage)
    (t : SpamTable) (ip D R j : Nat)
    (hq : session.GetPeerAddress peer = ip →
      ¬ Triggers env ip ((t ip).getD ClientSpamStats.new) m)
    (h : EscalationState D R j (t ip)) :
    EscalationState D R j ((FloodFilterMessage env t session peer m).SpamStats ip) := by
  rw [FloodFilterMessage_table]
  by_cases hip : session.GetPeerAddress peer = ip
  · obtain ⟨hT, hN, hR⟩ := FloodFilterMessage_update_of_not_triggers env ip _ m (hq hip)
    rw [hip, SpamTable.store_same]
    exact EscalationState_congr D R j _ _ hT hN hR h
  · rw [SpamTable.store_other _ _ _ _ (fun hk => hip hk.symm)]
    exact h

theorem EscalationState_run (env : Env) (session : Session) (ip D R : Nat)
    (es : List FloodEvent) :
    ∀ (t : SpamTable) (j : Nat), FloodEvent.Quiet env session ip t es →
      EscalationState D R j (t ip) →
      EscalationState D R (j + FloodEvent.seconds es) (FloodEvent.run env session t es ip) := by
  induction es with
  | nil => intro t j _ h; exact h
  | cons e es ih =>
    intro t j hq h
    cases e with
    | second =>
      have := ih (Tick.pass t) (j + 1) hq (EscalationState_second D R j t ip h)
      simpa [FloodEvent.run, FloodEvent.apply, FloodEvent.seconds, Nat.add_assoc,
        Nat.add_comm 1] using this
    | message peer m =>
      have := ih (FloodFilterMessage env t session peer m).SpamStats j hq.2
        (EscalationState_message env session peer m t ip D R j hq.1 h)
      simpa [FloodEvent.run, FloodEvent.apply, FloodEvent.seconds] using this

/-- C9, amended. Escalation, for configured values that fit an `int`: the default timeout
length is `D > 0` with `2 * D < 2 ^ 31`, the reset window is `R < 2 ^ 31`. A message of the peer triggers the flood limit on a record with no
escalation pending: the timeout is `D`. Then any list of events follows, one-second passes
of `Tick` and messages that do not trigger the limit for the address, and after it a message
of the peer triggers the limit again (so the timeout has been served). If fewer than `D + R`
seconds have passed, the reset window has not fully elapsed (`TimeoutResetSeconds` is still
positive) and the second timeout is `2 * D`; if `D + R` seconds or more have passed,
`TimeoutResetSeconds` has reached 0 and the timeout is `D` again. -/
theorem FloodFilterMessage_escalation (env : Env) (session : Session) (peer : Int)
    (t0 : SpamTable) (m1 m2 : ChatMessage) (es : List FloodEvent) (D R : Nat)
    (hD : env.cfg.FloodTimeoutSeconds = D) (hDpos : 0 < D) (hD2 : 2 * D < 2 ^ 31)
    (hR : env.cfg.FloodTimeoutResetSeconds = R) (hR31 : R < 2 ^ 31)
    (hfresh : ((t0 (session.GetPeerAddress peer)).getD
      ClientSpamStats.new).NextTimeoutSeconds ≤ 0)
    (htrig1 : Triggers env (session.GetPeerAddress peer)
      ((t0 (session.GetPeerAddress peer)).getD ClientSpamStats.new) m1)
    (hquiet : FloodEvent.Quiet env session (session.GetPeerAddress peer)
      (FloodFilterMessage env t0 session peer m1).SpamStats es)
    (htrig2 : Triggers env (session.GetPeerAddress peer)
      ((FloodEvent.run env session (FloodFilterMessage env t0 session peer m1).SpamStats es
        (session.GetPeerAddress peer)).getD ClientSpamStats.new) m2) :
    (∃ r1, (FloodFilterMessage env t0 session peer m1).SpamStats (session.GetPeerAddress peer)
        = some r1 ∧ r1.TimeoutSeconds = D) ∧
    D ≤ FloodEvent.seconds es ∧
    (FloodEvent.seconds es < D + R →
      0 < ((FloodEvent.run env session (FloodFilterMessage env t0 session peer m1).SpamStats es
        (session.GetPeerAddress peer)).getD ClientSpamStats.new).TimeoutResetSeconds ∧
      ∃ r3, (FloodFilterMessage env
          (FloodEvent.run env session (FloodFilterMessage env t0 session peer m1).SpamStats es)
          session peer m2).SpamStats (session.GetPeerAddress peer) = some r3 ∧
        r3.TimeoutSeconds = 2 * D) ∧
    (D + R ≤ FloodEvent.seconds es →
      ((FloodEvent.run env session (FloodFilterMessage env t0 session peer m1).SpamStats es
        (session.GetPeerAddress peer)).getD ClientSpamStats.new).TimeoutResetSeconds = 0 ∧
      ∃ r3, (FloodFilterMessage env
          (FloodEvent.run env session (FloodFilterMessage env t0 session peer m1).SpamStats es)
          session peer m2).SpamStats (session.GetPeerAddress peer) = some r3 ∧
        r3.TimeoutSeconds = D) := by
  have hDi : toInt32 (env.cfg.FloodTimeoutSeconds : Int) = D := by
    rw [hD]; exact toInt32_natCast D (by omega)
  have hRi : toInt32 (env.cfg.FloodTimeoutResetSeconds : Int) = R := by
    rw [hR]; exact toInt32_natCast R hR31
  have h2Di : toInt32 ((D : Int) * 2) = 2 * D := by
    rw [toInt32_of_in]
    · omega
    · unfold InInt32; omega
  -- the first trigger
  obtain ⟨hT1, hN1, hR1⟩ := FloodFilterMessage_update_of_triggers env _ _ m1 htrig1
  rw [if_neg (by omega), hDi] at hT1 hN1
  rw [hRi] at hR1
  have htab1 := FloodFilterMessage_table env t0 session peer m1
  have hstate0 : EscalationState D R 0
      ((FloodFilterMessage env t0 session peer m1).SpamStats (session.GetPeerAddress peer)) := by
    rw [htab1, SpamTable.store_same]
    unfold EscalationState
    rw [if_pos hDpos]
    exact ⟨_, rfl, by rw [hT1]; simp, hR1, fun _ => hN1⟩
  -- the events in between
  have hstate := EscalationState_run env session _ D R es _ 0 hquiet hstate0
  rw [Nat.zero_add] at hstate
  -- the second trigger
  obtain ⟨hT3, _, _⟩ := FloodFilterMessage_update_of_triggers env _ _ m2 htrig2
  have htab3 := FloodFilterMessage_table env
    (FloodEvent.run env session (FloodFilterMessage env t0 session peer m1).SpamStats es)
    session peer m2
  have hserved : D ≤ FloodEvent.seconds es := by
    by_contra hlt
    unfold EscalationState at hstate
    rw [if_pos (by omega)] at hstate
    obtain ⟨r, ho, hts, _⟩ := hstate
    have := htrig2.1
    rw [ho] at this
    simp only [Option.getD_some] at this
    omega
  refine ⟨⟨_, by rw [htab1, SpamTable.store_same], hT1⟩, hserved, ?_, ?_⟩
  · intro hlt
    unfold EscalationState at hstate
    rw [if_neg (by omega), if_pos hlt] at hstate
    obtain ⟨r, ho, hts, hrs, hnx⟩ := hstate
    rw [ho] at hT3 ⊢
    simp only [Option.getD_some] at hT3 ⊢
    refine ⟨by omega, _, by rw [htab3, SpamTable.store_same], ?_⟩
    rw [ho]
    simp only [Option.getD_some]
    rw [hT3, if_pos (by omega), hnx, h2Di]
  · intro hge
    unfold EscalationState at hstate
    rw [if_neg (by omega), if_neg (by omega)] at hstate
    obtain ⟨hts, hrs, hnx⟩ := hstate
    refine ⟨hrs, _, by rw [htab3, SpamTable.store_same], ?_⟩
    rw [hT3, if_neg (by omega), hDi]

/-- Witness of the amended C9: default length 2 and reset window 3. Peer 1 triggers the limit, then three
seconds pass (with one more message of peer 1, thrown out, after the first), and peer 1
triggers the limit again: the timeout is 4 seconds. -/
theorem FloodFilterMessage_escalation_witness :
    (Triggers Sample.quick (Sample.session.GetPeerAddress 1)
        ((SpamTable.empty (Sample.session.GetPeerAddress 1)).getD ClientSpamStats.new)
        ⟨0, [104, 105], [66], 0⟩ ∧
      FloodEvent.seconds [FloodEvent.second, FloodEvent.message 1 ⟨0, [104], [66], 0⟩,
        FloodEvent.second, FloodEvent.second] < 2 + 3) ∧
    ∃ r3, (FloodFilterMessage Sample.quick
        (FloodEvent.run Sample.quick Sample.session
          (FloodFilterMessage Sample.quick SpamTable.empty Sample.session 1
            ⟨0, [104, 105], [66], 0⟩).SpamStats
          [FloodEvent.second, FloodEvent.message 1 ⟨0, [104], [66], 0⟩,
            FloodEvent.second, FloodEvent.second])
        Sample.session 1 ⟨0, [111, 107], [66], 0⟩).SpamStats (Sample.session.GetPeerAddress 1)
        = some r3 ∧ r3.TimeoutSeconds = 2 * (2 : Nat) :=
  ⟨by decide,
    ((FloodFilterMessage_escalation Sample.quick Sample.session 1 SpamTable.empty
      ⟨0, [104, 105], [66], 0⟩ ⟨0, [111, 107], [66], 0⟩
      [FloodEvent.second, FloodEvent.message 1 ⟨0, [104], [66], 0⟩,
        FloodEvent.second, FloodEvent.second] 2 3 rfl (by decide) (by decide) rfl (by decide)
      (by decide) (by decide) (by decide) (by decide)).2.2.1 (by decide)).2⟩

/-! ## Rejection by the flood filter -/

theorem loop_sends (env : Env) (session : Session) (m : ChatMessage) (peers : PeerBitSet)
    (p : Int) (ht : peers.test p = true) (hl : p ≠ session.LocalPeerIndex) (ps : List Int)
    (hall : ∀ q ∈ ps, 0 ≤ q) (hp : p ∈ ps) :
    Effect.PacketSend p m ∈ (BroadcastMessage.loop env session m peers ps).2 := by
  induction ps with
  | nil => simp at hp
  | cons q qs ih =>
    have hq : ¬ q < 0 := by
      have := hall q (by simp)
      omega
    have hqs : ∀ q ∈ qs, 0 ≤ q := fun x hx => hall x (List.mem_cons_of_mem _ hx)
    simp only [BroadcastMessage.loop, hq, if_false, SendMessagePacket]
    rcases List.mem_cons.mp hp with rfl | hp'
    · simp [ht, hl]
    · have := ih hqs hp'
      split_ifs with h1 h2 h3
      · exact this
      · exact List.mem_append_right _ this
      · simp at h3
      · exact List.mem_append_right _ this

theorem PeerBitSet_single (peer q : Int) (hpeer : 0 ≤ peer) (hq : 0 ≤ q) :
    (PeerBitSet.none.set peer).test q = true ↔ q = peer := by
  simp only [PeerBitSet.test, PeerBitSet.set, PeerBitSet.none]
  constructor
  · intro h
    split_ifs at h with h1
    omega
  · rintro rfl
    simp

theorem FloodFilterMessage_effects_of_reject (env : Env) (t : SpamTable) (session : Session)
    (peer : Int) (m : ChatMessage) (h : (FloodFilterMessage env t session peer m).result = true) :
    (FloodFilterMessage env t session peer m).effects
      = (SendServerMessage env (FloodFilterMessage.notice
          (FloodFilterMessage.update env (session.GetPeerAddress peer)
            ((t (session.GetPeerAddress peer)).getD ClientSpamStats.new) m).TimeoutSeconds)
          (PeerBitSet.none.set peer)).2 := by
  have hts := (FloodFilterMessage_result env t session peer m).mp h
  unfold FloodFilterMessage
  simp only [hts, if_true]

open ChatMessageType in
theorem HostReceivedMessage_of_rejected (env : Env) (t : SpamTable) (session : Session)
    (peer : Int) (message : ChatMessage)
    (hpeer : 0 ≤ peer) (hbody : message.Body ≠ []) (htype : message.MessageType ≠ Server)
    (hplayer : 0 ≤ session.GetPeerPlayer peer)
    (hlocal : peer ≠ session.LocalPeerIndex) (hen : env.cfg.FloodFilterEnabled ≠ 0)
    (hrej : (FloodFilterMessage env t session peer
      (FillInSenderName env session peer message).2).result = true) :
    HostReceivedMessage env t session peer message
      = ⟨true,
        (FloodFilterMessage env t session peer
          (FillInSenderName env session peer message).2).SpamStats,
        (FloodFilterMessage env t session peer
          (FillInSenderName env session peer message).2).effects⟩ := by
  have h1 : ¬(peer < 0 ∨ message.Body = [] ∨ message.MessageType = Server) := by
    rintro (h | h | h)
    · omega
    · exact hbody h
    · exact htype h
  have h2 : (FillInSenderName env session peer message).1 = true := by
    simp only [FillInSenderName]
    rw [if_neg (by omega)]
  have h3 : HostReceivedMessage.floodCheck env t session peer
      (FillInSenderName env session peer message).2
      = FloodFilterMessage env t session peer (FillInSenderName env session peer message).2 := by
    unfold HostReceivedMessage.floodCheck
    rw [if_pos ⟨hlocal, hen⟩]
  unfold HostReceivedMessage
  simp only [h1, h2, h3, hrej, if_false, if_true, Bool.not_true, Bool.false_eq_true]

open ChatMessageType in
/-- C10. The host receives a valid message (non-negative peer with a player, non-empty body,
type not Server) from a non-local peer `P`, the flood filter is enabled and rejects it. Then
`HostReceivedMessage` returns `true` and everything it does is the call
`SendServerMessage(notice, {P})`: a Server-type notice whose text quotes the
`TimeoutSeconds` of the record of the address, with a target set whose only member is `P`.
Nothing is logged and no packet goes to another peer. When the session is the active
session of the host and is established, that call is the broadcast of the notice to `{P}`:
no `MessageReceived` callback runs, and unless a handler vetoes the notice it is sent to `P`
when `P` is connected. -/
theorem HostReceivedMessage_flood_rejected (env : Env) (t : SpamTable) (session : Session)
    (peer : Int) (message : ChatMessage)
    (hpeer : 0 ≤ peer) (hbody : message.Body ≠ []) (htype : message.MessageType ≠ Server)
    (hplayer : 0 ≤ session.GetPeerPlayer peer)
    (hlocal : peer ≠ session.LocalPeerIndex) (hen : env.cfg.FloodFilterEnabled ≠ 0)
    (hrej : (FloodFilterMessage env t session peer
      (FillInSenderName env session peer message).2).result = true) :
    ∃ r : ClientSpamStats,
      (HostReceivedMessage env t session peer message).SpamStats (session.GetPeerAddress peer)
        = some r ∧
      0 < r.TimeoutSeconds ∧
      (HostReceivedMessage env t session peer message).result = true ∧
      (HostReceivedMessage env t session peer message).effects
        = (SendServerMessage env (FloodFilterMessage.notice r.TimeoutSeconds)
            (PeerBitSet.none.set peer)).2 ∧
      FloodFilterMessage.notice r.TimeoutSeconds
        = chars "You have exceeded the server's spam limit. You can chat again in "
          ++ to_string r.TimeoutSeconds ++ chars " second(s)." ∧
      (∀ q, 0 ≤ q → ((PeerBitSet.none.set peer).test q = true ↔ q = peer)) ∧
      (∀ l, Effect.Log l ∉ (HostReceivedMessage env t session peer message).effects) ∧
      (∀ q m, Effect.PacketSend q m ∈ (HostReceivedMessage env t session peer message).effects →
        q = peer) ∧
      (env.ActiveSession = some session → session.IsHost = true →
        session.IsEstablished = true →
        (HostReceivedMessage env t session peer message).effects
          = (BroadcastMessage env session session.LocalPeerIndex
              (ChatMessage.new env.L Server (FloodFilterMessage.notice r.TimeoutSeconds))
              (PeerBitSet.none.set peer)).2 ∧
        (∀ j m, Effect.MessageReceived j m ∉
          (HostReceivedMessage env t session peer message).effects) ∧
        (0 ≤ session.LocalPeerIndex →
          (BroadcastMessage.handlers env.chatHandlers 0 session.LocalPeerIndex
            (ChatMessage.new env.L Server (FloodFilterMessage.notice r.TimeoutSeconds))
            false).2.1 = false →
          (∀ q ∈ session.Peers, 0 ≤ q) → peer ∈ session.Peers →
          Effect.PacketSend peer
            (BroadcastMessage.handlers env.chatHandlers 0 session.LocalPeerIndex
              (ChatMessage.new env.L Server (FloodFilterMessage.notice r.TimeoutSeconds))
              false).1 ∈ (HostReceivedMessage env t session peer message).effects)) := by
  have hH := HostReceivedMessage_of_rejected env t session peer message hpeer hbody htype
    hplayer hlocal hen hrej
  have hts := (FloodFilterMessage_result env t session peer _).mp hrej
  have heff := FloodFilterMessage_effects_of_reject env t session peer _ hrej
  have hset := fun q hq => PeerBitSet_single peer q hpeer hq
  refine ⟨_, ?_, hts, ?_, ?_, rfl, hset, ?_, ?_, ?_⟩
  · rw [hH]
    simp only [FloodFilterMessage_table, SpamTable.store_same]
  · rw [hH]
  · rw [hH]
    exact heff
  · intro l hl
    rw [hH] at hl
    simp only [heff] at hl
    rcases SendServerMessage_effects _ _ _ _ hl with ⟨j, p, m', g', h, _⟩ | ⟨j, m', h, _⟩ |
      ⟨q, m', h, _⟩ <;> simp at h
  · intro q m hq
    rw [hH] at hq
    simp only [heff] at hq
    rcases SendServerMessage_effects _ _ _ _ hq with ⟨j, p, m', g', h, _⟩ | ⟨j, m', h, _⟩ |
      ⟨q', m', h, hq0, hqt⟩
    · simp at h
    · simp at h
    · simp only [Effect.PacketSend.injEq] at h
      rw [h.1]
      exact (hset q' hq0).mp hqt
  · intro hact hhost hest
    have hsend : (HostReceivedMessage env t session peer message).effects
        = (BroadcastMessage env session session.LocalPeerIndex
            (ChatMessage.new env.L Server (FloodFilterMessage.notice
              (FloodFilterMessage.update env (session.GetPeerAddress peer)
                ((t (session.GetPeerAddress peer)).getD ClientSpamStats.new)
                (FillInSenderName env session peer message).2).TimeoutSeconds))
            (PeerBitSet.none.set peer)).2 := by
      rw [hH]
      simp only [heff, SendServerMessage, hact, hhost, hest, Bool.not_true, Bool.or_self,
        Bool.false_eq_true, if_false]
    refine ⟨hsend, ?_, ?_⟩
    · intro j m hm
      rw [hsend] at hm
      rcases BroadcastMessage_effects _ _ _ _ _ _ hm with ⟨j', m', g', h, _⟩ |
        ⟨j', m', _, q, _, hql, hq0, hqt⟩ | ⟨q, m', h, _⟩
      · simp at h
      · exact hlocal (((hset q hq0).mp hqt).symm.trans hql)
      · simp at h
    · intro hl0 hveto hall hmem
      rw [hsend]
      simp only [BroadcastMessage, hveto, if_false, Bool.false_eq_true]
      rw [if_neg (by omega)]
      exact List.mem_append_right _
        (loop_sends env session _ _ peer ((hset peer hpeer).mpr rfl) hlocal _ hall hmem)

set_option maxRecDepth 100000 in
/-- Witness of C10: in the sample session the address of peer 1 has 57 seconds of timeout
left; its message "hi" is answered by the notice, sent to peer 1 only. -/
theorem HostReceivedMessage_flood_rejected_witness :
    ((0 : Int) ≤ 1 ∧ (1 : Int) ≠ Sample.session.LocalPeerIndex ∧
      Sample.env.cfg.FloodFilterEnabled ≠ 0 ∧
      (FloodFilterMessage Sample.env Sample.timedOut Sample.session 1
        (FillInSenderName Sample.env Sample.session 1 ⟨0, [104, 105], [], 0⟩).2).result
        = true) ∧
    (HostReceivedMessage Sample.env Sample.timedOut Sample.session 1
      ⟨0, [104, 105], [], 0⟩).effects
      = [Effect.PacketSend 1 ⟨3,
          chars "You have exceeded the server's spam limit. You can chat again in 57 second(s).",
          [], 0⟩] ∧
    ∃ r : ClientSpamStats,
      (HostReceivedMessage Sample.env Sample.timedOut Sample.session 1
        ⟨0, [104, 105], [], 0⟩).SpamStats (Sample.session.GetPeerAddress 1) = some r ∧
      0 < r.TimeoutSeconds ∧
      (HostReceivedMessage Sample.env Sample.timedOut Sample.session 1
        ⟨0, [104, 105], [], 0⟩).result = true :=
  ⟨by decide, by decide,
    (HostReceivedMessage_flood_rejected Sample.env Sample.timedOut Sample.session 1
      ⟨0, [104, 105], [], 0⟩ (by decide) (by decide) (by decide) (by decide) (by decide)
      (by decide) (by decide)).imp fun _ h => ⟨h.1, h.2.1, h.2.2.1⟩⟩

/-! ## The per-second pass -/

/-- C11 as stated fails. The record `⟨1, 0, 0, 0⟩` has a nonzero field at the start of the
pass (`SpamScore = 1`) and is removed by that pass; so is `⟨0, 0, 7, 0⟩`, whose only
nonzero field is `NextTimeoutSeconds`, and `⟨0, 1, 0, 0⟩`, which is serving the last second
of a timeout. -/
theorem Tick_pass_garbage_collection_counterexample :
    Tick.pass (SpamTable.empty.store 5 ⟨1, 0, 0, 0⟩) 5 = Option.none ∧
    Tick.pass (SpamTable.empty.store 5 ⟨0, 0, 7, 0⟩) 5 = Option.none ∧
    Tick.pass (SpamTable.empty.store 5 ⟨0, 1, 0, 0⟩) 5 = Option.none := by
  decide

/-- C11, amended. In one per-second pass a record is removed if and only if, after the
decrements of that pass, its `TimeoutSeconds`, `SpamScore` and `TimeoutResetSeconds` are all
`<= 0`; `NextTimeoutSeconds` is not tested. For a record with non-negative fields that is:
at the start of the pass `SpamScore <= 1`, `TimeoutSeconds <= 1` and
`TimeoutResetSeconds <= 1`, with `TimeoutResetSeconds = 0` when `TimeoutSeconds = 1`. So the
all-zero record is removed, and every record with `SpamScore >= 2`, `TimeoutSeconds >= 2` or
`TimeoutResetSeconds >= 2` at the start of the pass is still in the table after it, with
the decremented fields. -/
theorem Tick_pass_garbage_collection (t : SpamTable) (ip : Nat) (r : ClientSpamStats)
    (h : t ip = some r) :
    (Tick.pass t ip = Option.none ↔
      (Tick.record r).TimeoutSeconds ≤ 0 ∧ (Tick.record r).SpamScore ≤ 0 ∧
        (Tick.record r).TimeoutResetSeconds ≤ 0) ∧
    (0 ≤ r.SpamScore → 0 ≤ r.TimeoutSeconds → 0 ≤ r.TimeoutResetSeconds →
      (Tick.pass t ip = Option.none ↔
        r.SpamScore ≤ 1 ∧ r.TimeoutSeconds ≤ 1 ∧ r.TimeoutResetSeconds ≤ 1 ∧
          (r.TimeoutSeconds = 1 → r.TimeoutResetSeconds = 0))) ∧
    (r = ⟨0, 0, 0, 0⟩ → Tick.pass t ip = Option.none) ∧
    (2 ≤ r.SpamScore ∨ 2 ≤ r.TimeoutSeconds ∨ 2 ≤ r.TimeoutResetSeconds →
      Tick.pass t ip = some (Tick.record r)) := by
  have hpass : Tick.pass t ip
      = if Tick.erases (Tick.record r) then Option.none else some (Tick.record r) := by
    rw [Tick_pass_apply, h]
  have hiff : Tick.pass t ip = Option.none ↔ Tick.erases (Tick.record r) = true := by
    rw [hpass]
    by_cases he : Tick.erases (Tick.record r) = true <;> simp [he]
  have hS := Tick_record_SpamScore r
  have hT := Tick_record_TimeoutSeconds r
  have hR := Tick_record_TimeoutResetSeconds r
  refine ⟨by rw [hiff, Tick_erases_iff], ?_, ?_, ?_⟩
  · intro h1 h2 h3
    rw [hiff, Tick_erases_iff, hS, hT, hR]
    split_ifs <;> omega
  · rintro rfl
    rw [hiff]
    decide
  · intro h2
    have hne : ¬ Tick.erases (Tick.record r) = true := by
      rw [Tick_erases_iff, hS, hT, hR]
      split_ifs <;> omega
    rw [hpass, if_neg hne]

/-- Witness of the amended C11: a record with score 2 survives the pass with score 1. -/
theorem Tick_pass_garbage_collection_witness :
    (SpamTable.empty.store 5 ⟨2, 0, 0, 0⟩) 5 = some ⟨2, 0, 0, 0⟩ ∧
    Tick.pass (SpamTable.empty.store 5 ⟨2, 0, 0, 0⟩) 5 = some (Tick.record ⟨2, 0, 0, 0⟩) ∧
    Tick.record ⟨2, 0, 0, 0⟩ = ⟨1, 0, 0, 0⟩ :=
  ⟨by decide,
    (Tick_pass_garbage_collection (SpamTable.empty.store 5 ⟨2, 0, 0, 0⟩) 5 ⟨2, 0, 0, 0⟩
      (by decide)).2.2.2 (Or.inl (by decide)),
    by decide⟩

theorem Tick_pass_SpamScore (t : SpamTable) (ip : Nat)
    (h : 0 ≤ ((t ip).getD ClientSpamStats.new).SpamScore) :
    ((Tick.pass t ip).getD ClientSpamStats.new).SpamScore
      = max 0 (((t ip).getD ClientSpamStats.new).SpamScore - 1) := by
  rw [Tick_pass_apply]
  cases ho : t ip with
  | none => simp [ClientSpamStats.new]
  | some r =>
    rw [ho] at h
    simp only [Option.getD_some] at h ⊢
    have hS := Tick_record_SpamScore r
    by_cases he : Tick.erases (Tick.record r) = true
    · have := ((Tick_erases_iff _).mp he).2.1
      rw [if_pos he]
      simp only [Option.getD_none, ClientSpamStats.new]
      rw [hS] at this
      split_ifs at this <;> omega
    · rw [if_neg he]
      simp only [Option.getD_some]
      rw [hS]
      split_ifs <;> omega

theorem Tick_pass_iterate_SpamScore (ip : Nat) (k : Nat) :
    ∀ t : SpamTable, 0 ≤ ((t ip).getD ClientSpamStats.new).SpamScore →
      ((Nat.iterate Tick.pass k t ip).getD ClientSpamStats.new).SpamScore
        = max 0 (((t ip).getD ClientSpamStats.new).SpamScore - k) := by
  induction k with
  | zero => intro t h; simp only [Function.iterate_zero, id_eq]; omega
  | succ k ih =>
    intro t h
    have h1 := Tick_pass_SpamScore t ip h
    rw [Function.iterate_succ_apply, ih (Tick.pass t) (by rw [h1]; omega), h1]
    push_cast
    omega

/-- C12. Flood decay: a record with `SpamScore = S >= 0` has `SpamScore = max(0, S - k)`
after `k` one-second passes with no message in between, whatever its other fields (so in
particular when `TimeoutSeconds = 0`); a record the passes have removed counts as the
zeroed record. -/
theorem Tick_pass_decay (t : SpamTable) (ip : Nat) (r : ClientSpamStats) (k : Nat)
    (h : t ip = some r) (hS : 0 ≤ r.SpamScore) :
    ((Nat.iterate Tick.pass k t ip).getD ClientSpamStats.new).SpamScore
      = max 0 (r.SpamScore - k) := by
  have := Tick_pass_iterate_SpamScore ip k t (by rw [h]; exact hS)
  rw [h] at this
  exact this

/-- Witness of C12: score 5 is 2 after three passes and 0 after seven (the record is gone). -/
theorem Tick_pass_decay_witness :
    ((SpamTable.empty.store 5 ⟨5, 0, 0, 0⟩) 5 = some ⟨5, 0, 0, 0⟩ ∧
      (0 : Int) ≤ (⟨5, 0, 0, 0⟩ : ClientSpamStats).SpamScore) ∧
    ((Nat.iterate Tick.pass 3 (SpamTable.empty.store 5 ⟨5, 0, 0, 0⟩) 5).getD
      ClientSpamStats.new).SpamScore = max 0 ((5 : Int) - (3 : Nat)) ∧
    Nat.iterate Tick.pass 7 (SpamTable.empty.store 5 ⟨5, 0, 0, 0⟩) 5 = Option.none :=
  ⟨by decide,
    Tick_pass_decay (SpamTable.empty.store 5 ⟨5, 0, 0, 0⟩) 5 ⟨5, 0, 0, 0⟩ 3 (by decide)
      (by decide),
    by decide⟩

/-! ## The accumulator of `Tick` -/

theorem Tick_loop_eq (fuel : Nat) :
    ∀ (ms : Nat) (t : SpamTable), ms / 1000 ≤ fuel →
      Tick.loop fuel ms t = (ms % 1000, Nat.iterate Tick.pass (ms / 1000) t) := by
  induction fuel with
  | zero =>
    intro ms t h
    have hlt : ms < 1000 := by omega
    simp [Tick.loop, Nat.mod_eq_of_lt hlt, Nat.div_eq_of_lt hlt]
  | succ fuel ih =>
    intro ms t h
    unfold Tick.loop
    by_cases hge : ms ≥ 1000
    · rw [if_pos hge, ih (ms - 1000) (Tick.pass t) (by omega)]
      have h1 : ms / 1000 = (ms - 1000) / 1000 + 1 := by omega
      have h2 : ms % 1000 = (ms - 1000) % 1000 := by omega
      rw [h1, h2, Function.iterate_succ_apply]
    · have hlt : ms < 1000 := by omega
      rw [if_neg hge, Nat.mod_eq_of_lt hlt, Nat.div_eq_of_lt hlt]
      rfl

/-- C13. Tick accumulator: with the accumulator at `a` (below 1000 or not) and an elapsed
time `d` (the 32-bit difference of the two `timeGetTime()` values) such that
`a + d < 2 ^ 32`, one call of `Tick` applies the per-second pass `(a + d) / 1000` times and
leaves the accumulator at `(a + d) % 1000`; no pass is applied when `a + d < 1000`, and the
accumulator is below 1000 after the call. -/
theorem Tick_accumulator (st : ChatState) (currentTimeMs a d : Nat)
    (ha : a = st.SpamUpdateMs) (hd : d = toUInt32 ((currentTimeMs : Int) - st.LastTimeMs))
    (hsum : a + d < 2 ^ 32) :
    (Tick st currentTimeMs).SpamStats = Nat.iterate Tick.pass ((a + d) / 1000) st.SpamStats ∧
    (Tick st currentTimeMs).SpamUpdateMs = (a + d) % 1000 ∧
    (a + d < 1000 → (Tick st currentTimeMs).SpamStats = st.SpamStats) ∧
    (Tick st currentTimeMs).SpamUpdateMs < 1000 ∧
    (Tick st currentTimeMs).LastTimeMs = currentTimeMs := by
  have hloop : Tick.loop (a + d) (a + d) st.SpamStats
      = ((a + d) % 1000, Nat.iterate Tick.pass ((a + d) / 1000) st.SpamStats) :=
    Tick_loop_eq (a + d) (a + d) st.SpamStats (Nat.div_le_self _ _)
  have ht : Tick st currentTimeMs
      = ⟨Nat.iterate Tick.pass ((a + d) / 1000) st.SpamStats, currentTimeMs,
          (a + d) % 1000⟩ := by
    unfold Tick
    simp only [← ha, ← hd, Nat.mod_eq_of_lt hsum, hloop]
  rw [ht]
  refine ⟨rfl, rfl, ?_, Nat.mod_lt _ (by decide), rfl⟩
  intro hlt
  simp only [Nat.div_eq_of_lt hlt, Function.iterate_zero, id_eq]

/-- Witness of C13: 700 ms in the accumulator and 2500 ms elapsed give three passes and
leave 200 ms. -/
theorem Tick_accumulator_witness :
    (700 + 2500 < 2 ^ 32 ∧
      (2500 : Nat) = toUInt32 (((12500 : Nat) : Int) - (10000 : Nat))) ∧
    (Tick ⟨Sample.table, 10000, 700⟩ 12500).SpamStats
      = Nat.iterate Tick.pass ((700 + 2500) / 1000) Sample.table ∧
    (Tick ⟨Sample.table, 10000, 700⟩ 12500).SpamUpdateMs = (700 + 2500) % 1000 :=
  ⟨by decide,
    (Tick_accumulator ⟨Sample.table, 10000, 700⟩ 12500 700 2500 rfl (by decide)
      (by decide)).1,
    (Tick_accumulator ⟨Sample.table, 10000, 700⟩ 12500 700 2500 rfl (by decide)
      (by decide)).2.1⟩

/-! ## The handlers on the send path -/

theorem handlers_state (hs : List ChatHandler) (p : Int) :
    ∀ (k : Nat) (m : ChatMessage) (g : Bool),
      ((BroadcastMessage.handlers hs k p m g).1, (BroadcastMessage.handlers hs k p m g).2.1)
        = hs.foldl (BroadcastMessage.step p) (m, g) := by
  induction hs with
  | nil => intro k m g; rfl
  | cons h hs ih =>
    intro k m g
    simp only [BroadcastMessage.handlers, List.foldl_cons]
    exact ih (k + 1) _ _

theorem handlers_trace (hs : List ChatHandler) (p : Int) :
    ∀ (k : Nat) (m : ChatMessage) (g : Bool),
      (BroadcastMessage.handlers hs k p m g).2.2
        = (List.range hs.length).map fun i =>
            Effect.MessageSent (k + i) p (BroadcastMessage.stateAfter hs i p m g).1
              (BroadcastMessage.stateAfter hs i p m g).2 := by
  induction hs with
  | nil => intro k m g; rfl
  | cons h hs ih =>
    intro k m g
    simp only [BroadcastMessage.handlers, List.length_cons, List.range_succ_eq_map,
      List.map_cons, List.map_map]
    rw [ih (k + 1)]
    refine congrArg₂ _ ?_ ?_
    · simp [BroadcastMessage.stateAfter]
    · apply List.map_congr_left
      intro i _
      simp only [Function.comp_apply, BroadcastMessage.stateAfter, Nat.succ_eq_add_one,
        List.take_succ_cons, List.foldl_cons, BroadcastMessage.step]
      rw [Nat.add_assoc, Nat.add_comm 1 i]

theorem foldl_keeps_veto (p : Int) (post : List ChatHandler)
    (hkeep : ∀ h ∈ post, ∀ m, (h.MessageSent p m true).2 = true) :
    ∀ m : ChatMessage, (post.foldl (BroadcastMessage.step p) (m, true)).2 = true := by
  induction post with
  | nil => intro m; rfl
  | cons h hs ih =>
    intro m
    have h1 := hkeep h (by simp) m
    have hstep : BroadcastMessage.step p (m, true) h
        = ((h.MessageSent p m true).1, true) := by
      simp only [BroadcastMessage.step]
      exact Prod.ext rfl h1
    rw [List.foldl_cons, hstep]
    exact ih (fun h' hh' => hkeep h' (List.mem_cons_of_mem _ hh')) _

theorem BroadcastMessage_of_veto (env : Env) (session : Session) (p : Int) (m : ChatMessage)
    (peers : PeerBitSet) (hp : 0 ≤ p)
    (hveto : (BroadcastMessage.handlers env.chatHandlers 0 p m false).2.1 = true) :
    BroadcastMessage env session p m peers
      = (true, (BroadcastMessage.handlers env.chatHandlers 0 p m false).2.2) := by
  simp only [BroadcastMessage, hveto, if_true]
  rw [if_neg (by omega)]

/-- C14 as stated fails. In the sample session with two handlers, the first marks the message
"hi" of peer 1 ignored and the second clears the flag: `BroadcastMessage` then delivers the
message, to the local peer through `MessageReceived` and to peers 1 and 2 over the
transport. -/
theorem BroadcastMessage_veto_counterexample :
    (Sample.vetoes.MessageSent 1 ⟨0, [104, 105], [66], 0⟩ false).2 = true ∧
    BroadcastMessage Sample.vetoCleared Sample.session 1 ⟨0, [104, 105], [66], 0⟩
        PeerBitSet.all
      = (true,
        [Effect.MessageSent 0 1 ⟨0, [104, 105], [66], 0⟩ false,
          Effect.MessageSent 1 1 ⟨0, [104, 105], [66], 0⟩ true,
          Effect.MessageReceived 0 ⟨0, [104, 105], [66], 0⟩,
          Effect.MessageReceived 1 ⟨0, [104, 105], [66], 0⟩,
          Effect.PacketSend 1 ⟨0, [104, 105], [66], 0⟩,
          Effect.PacketSend 2 ⟨0, [104, 105], [66], 0⟩]) := by
  decide

/-- C14, amended. Veto: for every handler list and every valid sender, if some registered
handler marks the message ignored in its `MessageSent` callback and every handler registered
after it leaves a set mark set, `BroadcastMessage` returns success, its only effects are the
`MessageSent` callbacks, no `MessageReceived` callback is invoked for any peer (the local
peer included) and no transport send is made. -/
theorem BroadcastMessage_veto (env : Env) (session : Session) (senderPeer : Int)
    (message : ChatMessage) (peers : PeerBitSet) (pre post : List ChatHandler)
    (h : ChatHandler) (hp : 0 ≤ senderPeer)
    (hsplit : env.chatHandlers = pre ++ h :: post)
    (hmark : (BroadcastMessage.step senderPeer
      (pre.foldl (BroadcastMessage.step senderPeer) (message, false)) h).2 = true)
    (hkeep : ∀ h' ∈ post, ∀ m, (h'.MessageSent senderPeer m true).2 = true) :
    (BroadcastMessage env session senderPeer message peers).1 = true ∧
    (BroadcastMessage env session senderPeer message peers).2
      = (BroadcastMessage.handlers env.chatHandlers 0 senderPeer message false).2.2 ∧
    (∀ e ∈ (BroadcastMessage env session senderPeer message peers).2,
      (∀ i m, e ≠ Effect.MessageReceived i m) ∧ (∀ q m, e ≠ Effect.PacketSend q m)) := by
  have hflag : (BroadcastMessage.handlers env.chatHandlers 0 senderPeer message false).2.1
      = true := by
    have hst := congrArg Prod.snd (handlers_state env.chatHandlers senderPeer 0 message false)
    simp only at hst
    rw [hst, hsplit, List.foldl_append, List.foldl_cons]
    have hm : BroadcastMessage.step senderPeer
        (pre.foldl (BroadcastMessage.step senderPeer) (message, false)) h
        = ((BroadcastMessage.step senderPeer
          (pre.foldl (BroadcastMessage.step senderPeer) (message, false)) h).1, true) :=
      Prod.ext rfl hmark
    rw [hm]
    exact foldl_keeps_veto senderPeer post hkeep _
  have hb := BroadcastMessage_of_veto env session senderPeer message peers hp hflag
  rw [hb]
  refine ⟨rfl, rfl, ?_⟩
  intro e he
  obtain ⟨j, m', g', rfl, _⟩ := handlers_effects _ _ _ _ _ e he
  exact ⟨fun _ _ hc => by simp at hc, fun _ _ hc => by simp at hc⟩

/-- Witness of the amended C14: the first handler vetoes, the second only watches. -/
theorem BroadcastMessage_veto_witness :
    ((0 : Int) ≤ 1 ∧ Sample.vetoWatched.chatHandlers = [] ++ Sample.vetoes :: [Sample.watches]) ∧
    (BroadcastMessage Sample.vetoWatched Sample.session 1 ⟨0, [104, 105], [66], 0⟩
      PeerBitSet.all).1 = true ∧
    (BroadcastMessage Sample.vetoWatched Sample.session 1 ⟨0, [104, 105], [66], 0⟩
      PeerBitSet.all).2
      = (BroadcastMessage.handlers Sample.vetoWatched.chatHandlers 0 1
          ⟨0, [104, 105], [66], 0⟩ false).2.2 :=
  ⟨⟨by decide, rfl⟩,
    (BroadcastMessage_veto Sample.vetoWatched Sample.session 1 ⟨0, [104, 105], [66], 0⟩
      PeerBitSet.all [] [Sample.watches] Sample.vetoes (by decide) rfl rfl
      (fun h' hh' m => by
        rw [List.mem_singleton.mp hh']
        rfl)).1,
    (BroadcastMessage_veto Sample.vetoWatched Sample.session 1 ⟨0, [104, 105], [66], 0⟩
      PeerBitSet.all [] [Sample.watches] Sample.vetoes (by decide) rfl rfl
      (fun h' hh' m => by
        rw [List.mem_singleton.mp hh']
        rfl)).2.1⟩

/-- C18 as stated fails. With the handlers "vetoes, watches" registered, the second handler's
`MessageSent` is invoked after the first has marked the message ignored (it is called with
the flag set); with "vetoes, clears" the second handler undoes the veto: the flag is clear
after the loop. -/
theorem BroadcastMessage_handlers_counterexample :
    (BroadcastMessage.handlers [Sample.vetoes, Sample.watches] 0 1
      ⟨0, [104, 105], [66], 0⟩ false).2.2
      = [Effect.MessageSent 0 1 ⟨0, [104, 105], [66], 0⟩ false,
          Effect.MessageSent 1 1 ⟨0, [104, 105], [66], 0⟩ true] ∧
    (BroadcastMessage.handlers [Sample.vetoes, Sample.clears] 0 1
      ⟨0, [104, 105], [66], 0⟩ false).2.1 = false := by
  decide

/-- C18, amended. On the send path the `MessageSent` callbacks run in registration order and
every handler is invoked, whatever the `ignore` flag: the `i`-th effect of the loop is the
call of the `i`-th handler, on the message and the flag as the handlers before it left them
(so a later handler can clear the mark of an earlier one). The message and the flag after
the loop are those the last handler left, and the send is vetoed exactly when that flag is
set. -/
theorem BroadcastMessage_handlers_order (env : Env) (session : Session) (senderPeer : Int)
    (message : ChatMessage) (peers : PeerBitSet) :
    (BroadcastMessage.handlers env.chatHandlers 0 senderPeer message false).2.2
      = (List.range env.chatHandlers.length).map (fun i =>
          Effect.MessageSent i senderPeer
            (BroadcastMessage.stateAfter env.chatHandlers i senderPeer message false).1
            (BroadcastMessage.stateAfter env.chatHandlers i senderPeer message false).2) ∧
    ((BroadcastMessage.handlers env.chatHandlers 0 senderPeer message false).1,
      (BroadcastMessage.handlers env.chatHandlers 0 senderPeer message false).2.1)
      = BroadcastMessage.stateAfter env.chatHandlers env.chatHandlers.length senderPeer
          message false ∧
    (0 ≤ senderPeer →
      ((BroadcastMessage.stateAfter env.chatHandlers env.chatHandlers.length senderPeer
          message false).2 = true →
        BroadcastMessage env session senderPeer message peers
          = (true, (BroadcastMessage.handlers env.chatHandlers 0 senderPeer message
              false).2.2)) ∧
      ((BroadcastMessage.stateAfter env.chatHandlers env.chatHandlers.length senderPeer
          message false).2 = false →
        BroadcastMessage env session senderPeer message peers
          = ((BroadcastMessage.loop env session
              (BroadcastMessage.stateAfter env.chatHandlers env.chatHandlers.length
                senderPeer message false).1 peers session.Peers).1,
            (BroadcastMessage.handlers env.chatHandlers 0 senderPeer message false).2.2 ++
              (BroadcastMessage.loop env session
                (BroadcastMessage.stateAfter env.chatHandlers env.chatHandlers.length
                  senderPeer message false).1 peers session.Peers).2))) := by
  have hst := handlers_state env.chatHandlers senderPeer 0 message false
  have htr := handlers_trace env.chatHandlers senderPeer 0 message false
  simp only [Nat.zero_add] at htr
  have hfin : BroadcastMessage.stateAfter env.chatHandlers env.chatHandlers.length
      senderPeer message false
      = ((BroadcastMessage.handlers env.chatHandlers 0 senderPeer message false).1,
        (BroadcastMessage.handlers env.chatHandlers 0 senderPeer message false).2.1) := by
    rw [hst, BroadcastMessage.stateAfter, List.take_length]
  refine ⟨htr, hfin.symm, ?_⟩
  intro hp
  rw [hfin]
  refine ⟨BroadcastMessage_of_veto env session senderPeer message peers hp, ?_⟩
  intro hflag
  simp only at hflag
  simp only [BroadcastMessage, hflag, Bool.false_eq_true, if_false]
  rw [if_neg (by omega)]

/-- Witness of the amended C18: with the handlers "vetoes, watches" the flag is set after the
last handler and the send is vetoed, after both callbacks have run. -/
theorem BroadcastMessage_handlers_order_witness :
    ((0 : Int) ≤ 1 ∧
      (BroadcastMessage.stateAfter Sample.vetoWatched.chatHandlers
        Sample.vetoWatched.chatHandlers.length 1 ⟨0, [104, 105], [66], 0⟩ false).2 = true) ∧
    BroadcastMessage Sample.vetoWatched Sample.session 1 ⟨0, [104, 105], [66], 0⟩
        PeerBitSet.all
      = (true, (BroadcastMessage.handlers Sample.vetoWatched.chatHandlers 0 1
          ⟨0, [104, 105], [66], 0⟩ false).2.2) :=
  ⟨by decide,
    ((BroadcastMessage_handlers_order Sample.vetoWatched Sample.session 1
      ⟨0, [104, 105], [66], 0⟩ PeerBitSet.all).2.2 (by decide)).1 (by decide)⟩

/-! ## Fan-out -/

theorem loop_eq (env : Env) (session : Session) (m : ChatMessage) (peers : PeerBitSet)
    (ps : List Int) :
    BroadcastMessage.loop env session m peers ps
      = (true, (ps.takeWhile fun p => decide (0 ≤ p)).flatMap
          (BroadcastSpec.delivery env session m peers)) := by
  induction ps with
  | nil => rfl
  | cons q qs ih =>
    simp only [BroadcastMessage.loop, List.takeWhile_cons, ih, SendMessagePacket]
    by_cases hq : q < 0
    · have hd : decide (0 ≤ q) = false := by simp; omega
      simp [hq, hd]
    · have hd : decide (0 ≤ q) = true := by simp; omega
      simp only [hq, hd, if_false, if_true, List.flatMap_cons, BroadcastSpec.delivery,
        ClientReceivedMessage]
      by_cases ht : peers.test q = true
      · by_cases hl : q = session.LocalPeerIndex
        · have ht' : peers.test session.LocalPeerIndex = true := hl ▸ ht
          simp [ht', hl]
        · simp [ht, hl]
      · simp [ht]

theorem count_delivery (env : Env) (session : Session) (m : ChatMessage) (peers : PeerBitSet)
    (q : Int) (ps : List Int) :
    (ps.flatMap (BroadcastSpec.delivery env session m peers)).count (Effect.PacketSend q m)
      = if peers.test q = true ∧ q ≠ session.LocalPeerIndex then ps.count q else 0 := by
  induction ps with
  | nil => simp
  | cons x xs ih =>
    rw [List.flatMap_cons, List.count_append, ih, List.count_cons]
    have hx : (BroadcastSpec.delivery env session m peers x).count (Effect.PacketSend q m)
        = if peers.test q = true ∧ q ≠ session.LocalPeerIndex ∧ x = q then 1 else 0 := by
      unfold BroadcastSpec.delivery
      by_cases ht : peers.test x = true
      · by_cases hl : x = session.LocalPeerIndex
        · rw [if_pos ht, if_pos hl]
          have h0 : ((List.range env.chatHandlers.length).map
              fun i => Effect.MessageReceived i m).count (Effect.PacketSend q m) = 0 := by
            rw [List.count_eq_zero]
            simp
          rw [h0, if_neg]
          rintro ⟨_, h2, h3⟩
          exact h2 (h3 ▸ hl)
        · rw [if_pos ht, if_neg hl]
          by_cases hxq : x = q
          · subst hxq
            simp [ht, hl]
          · have : ¬ q = x := fun h => hxq h.symm
            simp [hxq, this]
      · rw [if_neg ht]
        have : ¬ (peers.test q = true ∧ q ≠ session.LocalPeerIndex ∧ x = q) := by
          rintro ⟨h1, _, h3⟩
          exact ht (h3 ▸ h1)
        simp [this]
    rw [hx]
    by_cases h1 : peers.test q = true ∧ q ≠ session.LocalPeerIndex
    · by_cases hxq : x = q
      · simp [h1, hxq]
        omega
      · simp [h1, hxq]
    · have : ¬ (peers.test q = true ∧ q ≠ session.LocalPeerIndex ∧ x = q) :=
        fun h => h1 ⟨h.1, h.2.1⟩
      simp [h1, this]

/-- C15. Fan-out with host loopback: for a valid sender, when the `ignore` flag is clear
after the handlers, `BroadcastMessage` succeeds and, after the `MessageSent` callbacks, its
effects are the deliveries of the connected peers in session order, one peer after the
other: nothing for a peer outside the destination set, the `MessageReceived` callbacks of
every handler in registration order (and no transport send) for the local peer, one
transport send for any other peer. Slots the membership does not enumerate get nothing: a
packet goes to `q` only if `q` is connected, in the set and not local, and the number of
packets sent to `q` is the number of times the membership enumerates `q`. -/
theorem BroadcastMessage_fan_out (env : Env) (session : Session) (senderPeer : Int)
    (message : ChatMessage) (peers : PeerBitSet) (hp : 0 ≤ senderPeer)
    (hnoveto : (BroadcastMessage.handlers env.chatHandlers 0 senderPeer message false).2.1
      = false) :
    BroadcastMessage env session senderPeer message peers
      = (true,
        (BroadcastMessage.handlers env.chatHandlers 0 senderPeer message false).2.2 ++
          session.Connected.flatMap (BroadcastSpec.delivery env session
            (BroadcastMessage.handlers env.chatHandlers 0 senderPeer message false).1
            peers)) ∧
    (∀ q, (BroadcastMessage env session senderPeer message peers).2.count
        (Effect.PacketSend q
          (BroadcastMessage.handlers env.chatHandlers 0 senderPeer message false).1)
      = if peers.test q = true ∧ q ≠ session.LocalPeerIndex then session.Connected.count q
        else 0) ∧
    (∀ q m', Effect.PacketSend q m' ∈ (BroadcastMessage env session senderPeer message peers).2 →
      q ∈ session.Connected ∧ peers.test q = true ∧ q ≠ session.LocalPeerIndex ∧
        m' = (BroadcastMessage.handlers env.chatHandlers 0 senderPeer message false).1) := by
  have hb : BroadcastMessage env session senderPeer message peers
      = (true,
        (BroadcastMessage.handlers env.chatHandlers 0 senderPeer message false).2.2 ++
          session.Connected.flatMap (BroadcastSpec.delivery env session
            (BroadcastMessage.handlers env.chatHandlers 0 senderPeer message false).1
            peers)) := by
    simp only [BroadcastMessage, hnoveto, Bool.false_eq_true, if_false, loop_eq,
      Session.Connected]
    rw [if_neg (by omega)]
  have hnone : ∀ e ∈ (BroadcastMessage.handlers env.chatHandlers 0 senderPeer message
      false).2.2, ∀ q m', e ≠ Effect.PacketSend q m' := by
    intro e he q m' hc
    obtain ⟨j, m'', g', rfl, _⟩ := handlers_effects _ _ _ _ _ e he
    simp at hc
  refine ⟨hb, ?_, ?_⟩
  · intro q
    rw [hb]
    simp only
    rw [List.count_append, count_delivery, List.count_eq_zero.mpr, Nat.zero_add]
    intro hc
    exact hnone _ hc q _ rfl
  · intro q m' hmem
    rw [hb] at hmem
    simp only [List.mem_append, List.mem_flatMap] at hmem
    rcases hmem with hmem | ⟨x, hx, hmem⟩
    · exact absurd rfl (hnone _ hmem q m')
    · unfold BroadcastSpec.delivery at hmem
      split_ifs at hmem with ht hl
      · simp at hmem
      · simp only [List.mem_singleton, Effect.PacketSend.injEq] at hmem
        obtain ⟨rfl, rfl⟩ := hmem
        exact ⟨hx, ht, hl, rfl⟩
      · simp at hmem

/-- Witness of C15: with the handlers "vetoes, clears" the flag is clear after the loop; the
message of peer 1 for the set `{0, 2}` goes to both handlers of the local peer 0 and over
the transport to peer 2. -/
theorem BroadcastMessage_fan_out_witness :
    ((0 : Int) ≤ 1 ∧
      (BroadcastMessage.handlers Sample.vetoCleared.chatHandlers 0 1
        ⟨0, [104, 105], [66], 0⟩ false).2.1 = false) ∧
    BroadcastMessage Sample.vetoCleared Sample.session 1 ⟨0, [104, 105], [66], 0⟩
        ((PeerBitSet.none.set 0).set 2)
      = (true,
        [Effect.MessageSent 0 1 ⟨0, [104, 105], [66], 0⟩ false,
          Effect.MessageSent 1 1 ⟨0, [104, 105], [66], 0⟩ true,
          Effect.MessageReceived 0 ⟨0, [104, 105], [66], 0⟩,
          Effect.MessageReceived 1 ⟨0, [104, 105], [66], 0⟩,
          Effect.PacketSend 2 ⟨0, [104, 105], [66], 0⟩]) :=
  ⟨by decide,
    (BroadcastMessage_fan_out Sample.vetoCleared Sample.session 1 ⟨0, [104, 105], [66], 0⟩
      ((PeerBitSet.none.set 0).set 2) (by decide) (by decide)).1.trans (by decide)⟩

/-- C20. `BroadcastMessage` returns success if and only if `senderPeer >= 0`:
`SendMessagePacket` fails only for a negative peer, the fan-out loop visits only peers with a
non-negative index, so the loop never returns failure and its effects are the deliveries of
all the connected peers, up to the last one. -/
theorem BroadcastMessage_succeeds_iff (env : Env) (session : Session) (senderPeer : Int)
    (message : ChatMessage) (peers : PeerBitSet) :
    ((BroadcastMessage env session senderPeer message peers).1 = true ↔ 0 ≤ senderPeer) ∧
    (∀ q m, (SendMessagePacket q m).1 = false ↔ q < 0) ∧
    (∀ m ps, (BroadcastMessage.loop env session m peers ps).1 = true) ∧
    (∀ m, (BroadcastMessage.loop env session m peers session.Peers).2
      = session.Connected.flatMap (BroadcastSpec.delivery env session m peers)) := by
  refine ⟨?_, ?_, fun m ps => by rw [loop_eq], fun m => by rw [loop_eq, Session.Connected]⟩
  · simp only [BroadcastMessage, loop_eq]
    by_cases hp : senderPeer < 0
    · rw [if_pos hp]
      simp only [Bool.false_eq_true, false_iff]
      omega
    · rw [if_neg hp]
      have : 0 ≤ senderPeer := by omega
      split_ifs <;> simp [this]
  · intro q m
    unfold SendMessagePacket
    by_cases hq : q < 0 <;> simp [hq]

/-! ## Destination sets -/

theorem GetTeamPeers_loop_spec (session : Session) (team : Int) (ps : List Int) :
    ∀ (result : PeerBitSet) (i : Nat),
      GetTeamPeers.loop session team result ps i = true ↔
        result i = true ∨
          ∃ p ∈ ps.takeWhile (fun p => decide (0 ≤ p)),
            p.toNat = i ∧ session.GetPeerTeam p = team := by
  induction ps with
  | nil => intro result i; simp [GetTeamPeers.loop]
  | cons q qs ih =>
    intro result i
    unfold GetTeamPeers.loop
    rw [List.takeWhile_cons]
    by_cases hq : q < 0
    · have hd : decide (0 ≤ q) = false := by simp; omega
      simp [hq, hd]
    · have hd : decide (0 ≤ q) = true := by simp; omega
      rw [if_neg hq]
      simp only [hd, if_true, List.mem_cons, exists_eq_or_imp]
      by_cases ht : session.GetPeerTeam q = team
      · rw [if_pos ht, ih]
        simp only [PeerBitSet.set]
        by_cases hi : i = q.toNat
        · simp [hi, ht]
        · have : ¬ q.toNat = i := fun h => hi h.symm
          simp [hi, this]
      · rw [if_neg ht, ih]
        simp [ht]

open ChatMessageType in
/-- C16. Destination set, for a session that has teams and a sender `P` whose team is known.
For Global `GetMessagePeers` succeeds with a set that contains every connected peer. For Team
it succeeds with exactly the connected peers whose team is the team of `P`, `P` included
(when `P` is itself connected). For Whisper and for every other type value it fails. -/
theorem GetMessagePeers_destination (session : Session) (P : Int) (message : ChatMessage)
    (result : PeerBitSet) (hteams : session.HasTeams = true)
    (hteam : 0 ≤ session.GetPeerTeam P) :
    (message.MessageType = Global →
      (GetMessagePeers session P message result).1 = true ∧
      ∀ q ∈ session.Connected, (GetMessagePeers session P message result).2.test q = true) ∧
    (message.MessageType = Team →
      (GetMessagePeers session P message result).1 = true ∧
      (∀ q, 0 ≤ q → ((GetMessagePeers session P message result).2.test q = true ↔
        q ∈ session.Connected ∧ session.GetPeerTeam q = session.GetPeerTeam P)) ∧
      (P ∈ session.Connected → (GetMessagePeers session P message result).2.test P = true)) ∧
    (message.MessageType = Whisper → (GetMessagePeers session P message result).1 = false) ∧
    (message.MessageType ≠ Global → message.MessageType ≠ Team →
      (GetMessagePeers session P message result).1 = false) := by
  have hnn : ∀ q ∈ session.Connected, 0 ≤ q := by
    intro q hq
    have := List.mem_takeWhile_imp hq
    simpa using this
  have hT : message.MessageType = Team →
      ∀ q, 0 ≤ q → ((GetMessagePeers session P message result).2.test q = true ↔
        q ∈ session.Connected ∧ session.GetPeerTeam q = session.GetPeerTeam P) := by
    intro hty q hq
    have hne : ¬ session.GetPeerTeam P < 0 := by omega
    simp only [GetMessagePeers, hty, Team, Global, GetTeamPeers, hteams, hne, if_false,
      Bool.not_true, Bool.false_eq_true, PeerBitSet.test]
    rw [if_neg (by decide), if_pos trivial]
    simp only
    rw [GetTeamPeers_loop_spec]
    simp only [PeerBitSet.none, Bool.false_eq_true, false_or, Session.Connected]
    constructor
    · rintro ⟨p, hp, hpq, hpt⟩
      have hp0 := hnn p hp
      have : p = q := by omega
      subst this
      exact ⟨hp, hpt⟩
    · rintro ⟨hq', hqt⟩
      exact ⟨q, hq', rfl, hqt⟩
  refine ⟨?_, ?_, ?_, ?_⟩
  · intro hty
    simp [GetMessagePeers, hty, PeerBitSet.test, PeerBitSet.all]
  · intro hty
    refine ⟨?_, hT hty, fun hP => (hT hty P (hnn P hP)).mpr ⟨hP, rfl⟩⟩
    simp [GetMessagePeers, hty, Team, Global]
  · intro hty
    simp [GetMessagePeers, hty, Whisper, Team, Global]
  · intro h1 h2
    simp [GetMessagePeers, h1, h2]

open ChatMessageType in
/-- Witness of C16: in the sample session with teams, a Team message of peer 2 (team 0) goes
to peers 0 and 2 and not to peer 1. -/
theorem GetMessagePeers_destination_witness :
    (Sample.teams.HasTeams = true ∧ 0 ≤ Sample.teams.GetPeerTeam 2) ∧
    (GetMessagePeers Sample.teams 2 ⟨Team, [104, 105], [], 0⟩ PeerBitSet.none).1 = true ∧
    ((GetMessagePeers Sample.teams 2 ⟨Team, [104, 105], [], 0⟩ PeerBitSet.none).2.test 1
        = true ↔
      (1 : Int) ∈ Sample.teams.Connected ∧
        Sample.teams.GetPeerTeam 1 = Sample.teams.GetPeerTeam 2) ∧
    (GetMessagePeers Sample.teams 2 ⟨Team, [104, 105], [], 0⟩ PeerBitSet.none).2.test 2
      = true :=
  ⟨by decide,
    ((GetMessagePeers_destination Sample.teams 2 ⟨Team, [104, 105], [], 0⟩ PeerBitSet.none
      (by decide) (by decide)).2.1 rfl).1,
    ((GetMessagePeers_destination Sample.teams 2 ⟨Team, [104, 105], [], 0⟩ PeerBitSet.none
      (by decide) (by decide)).2.1 rfl).2.1 1 (by decide),
    ((GetMessagePeers_destination Sample.teams 2 ⟨Team, [104, 105], [], 0⟩ PeerBitSet.none
      (by decide) (by decide)).2.1 rfl).2.2 (by decide)⟩

/-! ## The per-second transition and the spec's steps -/

/-- C17 as stated fails. A record in the last second of its timeout, with 1800 seconds of reset
window: the pass of `Tick` ends the timeout and leaves the reset window at 1800, the spec's
steps also take one second off the reset window. -/
theorem Tick_record_steps_counterexample :
    Tick.record ⟨3, 1, 120, 1800⟩ = ⟨2, 0, 120, 1800⟩ ∧
    TickSpec.steps ⟨3, 1, 120, 1800⟩ = ⟨2, 0, 120, 1799⟩ := by
  decide

theorem ClientSpamStats.eq_iff (a b : ClientSpamStats) :
    a = b ↔ a.SpamScore = b.SpamScore ∧ a.TimeoutSeconds = b.TimeoutSeconds ∧
      a.NextTimeoutSeconds = b.NextTimeoutSeconds ∧
      a.TimeoutResetSeconds = b.TimeoutResetSeconds := by
  cases a
  cases b
  simp only [ClientSpamStats.mk.injEq]

theorem TickSpec_stepsFromStart_fields (r : ClientSpamStats) :
    (TickSpec.stepsFromStart r).SpamScore = max 0 (r.SpamScore - 1) ∧
    (TickSpec.stepsFromStart r).TimeoutSeconds = max 0 (r.TimeoutSeconds - 1) ∧
    (TickSpec.stepsFromStart r).TimeoutResetSeconds
      = (if r.TimeoutSeconds = 0 then max 0 (r.TimeoutResetSeconds - 1)
        else r.TimeoutResetSeconds) ∧
    (TickSpec.stepsFromStart r).NextTimeoutSeconds
      = (if (TickSpec.stepsFromStart r).TimeoutResetSeconds = 0 then 0
        else r.NextTimeoutSeconds) := by
  unfold TickSpec.stepsFromStart
  dsimp only
  split_ifs <;> exact ⟨rfl, rfl, rfl, rfl⟩

theorem TickSpec_steps_fields (r : ClientSpamStats) :
    (TickSpec.steps r).SpamScore = max 0 (r.SpamScore - 1) ∧
    (TickSpec.steps r).TimeoutSeconds = max 0 (r.TimeoutSeconds - 1) ∧
    (TickSpec.steps r).TimeoutResetSeconds
      = (if max 0 (r.TimeoutSeconds - 1) = 0 then max 0 (r.TimeoutResetSeconds - 1)
        else r.TimeoutResetSeconds) ∧
    (TickSpec.steps r).NextTimeoutSeconds
      = (if (TickSpec.steps r).TimeoutResetSeconds = 0 then 0 else r.NextTimeoutSeconds) := by
  unfold TickSpec.steps
  dsimp only
  split_ifs <;> exact ⟨rfl, rfl, rfl, rfl⟩

/-- C17, amended. For every record with non-negative fields the per-second transition of
`Tick` equals the spec's steps 1 to 4 with step 3 reading the `timeoutSeconds` the pass
started with: the reset clock moves only when no timeout was active at the start of the
pass. It equals the steps as the spec words them (step 3 reading the decremented value)
exactly for the records that are not in the last second of a timeout with a reset window
still open. -/
theorem Tick_record_steps (r : ClientSpamStats) (hS : 0 ≤ r.SpamScore)
    (hT : 0 ≤ r.TimeoutSeconds) (hR : 0 ≤ r.TimeoutResetSeconds) :
    Tick.record r = TickSpec.stepsFromStart r ∧
    (Tick.record r = TickSpec.steps r ↔
      ¬ (r.TimeoutSeconds = 1 ∧ 0 < r.TimeoutResetSeconds)) := by
  have c1 := Tick_record_SpamScore r
  have c2 := Tick_record_TimeoutSeconds r
  have c3 := Tick_record_TimeoutResetSeconds r
  have c4 := Tick_record_NextTimeoutSeconds r
  obtain ⟨a1, a2, a3, a4⟩ := TickSpec_stepsFromStart_fields r
  obtain ⟨b1, b2, b3, b4⟩ := TickSpec_steps_fields r
  constructor
  · rw [ClientSpamStats.eq_iff, c4, a4, c1, c2, c3, a1, a2, a3]
    split_ifs <;> omega
  · rw [ClientSpamStats.eq_iff, c4, b4, c1, c2, c3, b1, b2, b3]
    split_ifs <;> omega

/-- Witness of the amended C17, on the record of the counterexample. -/
theorem Tick_record_steps_witness :
    ((0 : Int) ≤ 3 ∧ (0 : Int) ≤ 1 ∧ (0 : Int) ≤ 1800) ∧
    Tick.record ⟨3, 1, 120, 1800⟩ = TickSpec.stepsFromStart ⟨3, 1, 120, 1800⟩ :=
  ⟨by decide,
    (Tick_record_steps ⟨3, 1, 120, 1800⟩ (by decide) (by decide) (by decide)).1⟩

/-! ## Severity score -/

theorem CalculateSpamScore_eq (env : Env) (ip : Nat) (stats : ClientSpamStats)
    (message : ChatMessage) (shortScore longScore : Nat)
    (hs : env.cfg.FloodMessageScoreShort = shortScore)
    (hl : env.cfg.FloodMessageScoreLong = longScore)
    (hle : shortScore ≤ longScore) (hl31 : longScore < 2 ^ 31)
    (hprod : env.L.MaxMessageLength * (longScore + 1 - shortScore) < 2 ^ 32)
    (hlen : message.Body.length ≤ env.L.MaxMessageLength) :
    CalculateSpamScore env ip stats message
      = ((shortScore + message.Body.length * (longScore + 1 - shortScore)
          / (env.L.MaxMessageLength + 1) : Nat) : Int) ∧
    message.Body.length * (longScore + 1 - shortScore) / (env.L.MaxMessageLength + 1)
      ≤ longScore - shortScore := by
  have hR : toUInt32 ((longScore : Int) + 1 - shortScore) = longScore + 1 - shortScore := by
    unfold toUInt32
    omega
  have hmul : message.Body.length * (longScore + 1 - shortScore)
      ≤ env.L.MaxMessageLength * (longScore + 1 - shortScore) :=
    Nat.mul_le_mul_right _ hlen
  have hq : message.Body.length * (longScore + 1 - shortScore) / (env.L.MaxMessageLength + 1)
      < longScore + 1 - shortScore := by
    rw [Nat.div_lt_iff_lt_mul (by omega)]
    calc message.Body.length * (longScore + 1 - shortScore)
        ≤ env.L.MaxMessageLength * (longScore + 1 - shortScore) := hmul
      _ < (env.L.MaxMessageLength + 1) * (longScore + 1 - shortScore) := by
          apply Nat.mul_lt_mul_of_pos_right <;> omega
      _ = (longScore + 1 - shortScore) * (env.L.MaxMessageLength + 1) := Nat.mul_comm _ _
  refine ⟨?_, by omega⟩
  unfold CalculateSpamScore
  simp only [hs, hl]
  rw [Nat.mod_eq_of_lt (show shortScore < 2 ^ 32 by omega),
    Nat.mod_eq_of_lt (show longScore < 2 ^ 32 by omega), hR,
    Nat.mod_eq_of_lt (show message.Body.length * (longScore + 1 - shortScore) < 2 ^ 32 by
      omega),
    Nat.mod_eq_of_lt (show shortScore + message.Body.length * (longScore + 1 - shortScore)
      / (env.L.MaxMessageLength + 1) < 2 ^ 32 by omega)]
  exact toInt32_natCast _ (by omega)

set_option maxRecDepth 100000 in
/-- C19 as stated fails. With `shortScore = 0 <= longScore = 2 ^ 25` and
`MaxMessageLength = 128`, a body of 128 characters: the 32-bit product
`128 * (2 ^ 25 + 1)` wraps to 128 and `CalculateSpamScore` returns 0, where the formula of
the claim gives 33294321; a body of 127 characters scores 33034209, so the score is not
non-decreasing in the length either. -/
theorem CalculateSpamScore_counterexample :
    (Sample.steep.cfg.FloodMessageScoreShort ≤ Sample.steep.cfg.FloodMessageScoreLong ∧
      (List.replicate 128 97).length ≤ Sample.steep.L.MaxMessageLength) ∧
    CalculateSpamScore Sample.steep 0 ClientSpamStats.new ⟨0, List.replicate 128 97, [], 0⟩
      = 0 ∧
    SeveritySpec Sample.steep.L 0 33554432 128 = 33294321 ∧
    CalculateSpamScore Sample.steep 0 ClientSpamStats.new ⟨0, List.replicate 127 97, [], 0⟩
      = 33034209 := by
  decide

/-- C19, amended. Severity bounds, where the 32-bit arithmetic does not wrap: for configured
scores with `0 <= shortScore <= longScore < 2 ^ 31` and
`MaxMessageLength * (longScore + 1 - shortScore) < 2 ^ 32`, and every body of length
`len <= MaxMessageLength`, `CalculateSpamScore` returns
`shortScore + len * (longScore + 1 - shortScore) / (MaxMessageLength + 1)` with floor
division; that value lies in `[shortScore, longScore]`, equals `shortScore` for the empty
body and is non-decreasing in the length of the body. -/
theorem CalculateSpamScore_bounds (env : Env) (ip : Nat) (stats : ClientSpamStats)
    (message : ChatMessage) (shortScore longScore : Nat)
    (hs : env.cfg.FloodMessageScoreShort = shortScore)
    (hl : env.cfg.FloodMessageScoreLong = longScore)
    (hle : shortScore ≤ longScore) (hl31 : longScore < 2 ^ 31)
    (hprod : env.L.MaxMessageLength * (longScore + 1 - shortScore) < 2 ^ 32)
    (hlen : message.Body.length ≤ env.L.MaxMessageLength) :
    CalculateSpamScore env ip stats message
      = SeveritySpec env.L shortScore longScore message.Body.length ∧
    (shortScore : Int) ≤ CalculateSpamScore env ip stats message ∧
    CalculateSpamScore env ip stats message ≤ longScore ∧
    (message.Body = [] → CalculateSpamScore env ip stats message = shortScore) ∧
    (∀ shorter : ChatMessage, shorter.Body.length ≤ message.Body.length →
      CalculateSpamScore env ip stats shorter ≤ CalculateSpamScore env ip stats message) := by
  obtain ⟨heq, hq⟩ := CalculateSpamScore_eq env ip stats message shortScore longScore hs hl
    hle hl31 hprod hlen
  refine ⟨?_, ?_, ?_, ?_, ?_⟩
  · rw [heq]
    unfold SeveritySpec
    have hcast : ((longScore + 1 - shortScore : Nat) : Int) = (longScore : Int) + 1 - shortScore := by
      omega
    rw [← hcast]
    push_cast
    rfl
  · generalize message.Body.length * (longScore + 1 - shortScore)
      / (env.L.MaxMessageLength + 1) = q at heq hq
    rw [heq]
    omega
  · generalize message.Body.length * (longScore + 1 - shortScore)
      / (env.L.MaxMessageLength + 1) = q at heq hq
    rw [heq]
    omega
  · intro hbody
    rw [heq, hbody]
    simp
  · intro shorter hshort
    obtain ⟨heq', _⟩ := CalculateSpamScore_eq env ip stats shorter shortScore longScore hs hl
      hle hl31 hprod (le_trans hshort hlen)
    have hmono := Nat.div_le_div_right (c := env.L.MaxMessageLength + 1)
      (Nat.mul_le_mul_right (longScore + 1 - shortScore) hshort)
    generalize message.Body.length * (longScore + 1 - shortScore)
      / (env.L.MaxMessageLength + 1) = q at heq hmono
    generalize shorter.Body.length * (longScore + 1 - shortScore)
      / (env.L.MaxMessageLength + 1) = q' at heq' hmono
    rw [heq, heq']
    omega

/-- Witness of the amended C19: the sample scores 2 to 5, a body of two characters. -/
theorem CalculateSpamScore_bounds_witness :
    ((2 : Nat) ≤ 5 ∧ (5 : Nat) < 2 ^ 31 ∧ Sample.env.L.MaxMessageLength * (5 + 1 - 2) < 2 ^ 32 ∧
      ([104, 105] : List Nat).length ≤ Sample.env.L.MaxMessageLength) ∧
    CalculateSpamScore Sample.env 0 ClientSpamStats.new ⟨0, [104, 105], [], 0⟩
      = SeveritySpec Sample.env.L 2 5 ([104, 105] : List Nat).length ∧
    ((2 : Nat) : Int) ≤ CalculateSpamScore Sample.env 0 ClientSpamStats.new
      ⟨0, [104, 105], [], 0⟩ :=
  ⟨by decide,
    (CalculateSpamScore_bounds Sample.env 0 ClientSpamStats.new ⟨0, [104, 105], [], 0⟩ 2 5 rfl
      rfl (by decide) (by decide) (by decide) (by decide)).1,
    (CalculateSpamScore_bounds Sample.env 0 ClientSpamStats.new ⟨0, [104, 105], [], 0⟩ 2 5 rfl
      rfl (by decide) (by decide) (by decide) (by decide)).2.1⟩

/-! ## Configured values that do not fit an `int` -/

/-- C7 as stated fails. The flood limit is configured as 4294967295; the cast
`static_cast<int>` makes it -1. On a fresh record the message "hi" scores 2: no addition
overflows, the new score 2 is below the configured limit, and yet a timeout of 120 seconds
starts and the message is thrown out. -/
theorem FloodFilterMessage_evaluation_counterexample :
    InInt32 (0 + CalculateSpamScore Sample.hugeLimit (Sample.session.GetPeerAddress 1)
      ClientSpamStats.new ⟨0, [104, 105], [66], 0⟩) ∧
    (0 + CalculateSpamScore Sample.hugeLimit (Sample.session.GetPeerAddress 1)
      ClientSpamStats.new ⟨0, [104, 105], [66], 0⟩ : Int)
      < Sample.hugeLimit.cfg.FloodTimeoutScore ∧
    (FloodFilterMessage Sample.hugeLimit SpamTable.empty Sample.session 1
      ⟨0, [104, 105], [66], 0⟩).SpamStats (Sample.session.GetPeerAddress 1)
      = some ⟨2, 120, 120, 1800⟩ ∧
    (FloodFilterMessage Sample.hugeLimit SpamTable.empty Sample.session 1
      ⟨0, [104, 105], [66], 0⟩).result = true := by
  decide

/-- C9 as stated fails. The default length is 2 and the reset window is configured as
4294967295 seconds, which the assignment to the `int` field turns into -1. Peer 1 triggers
the limit (timeout 2), two seconds pass, which serves the timeout and is far less than the
reset window, and the second pass erases the record; the next trigger starts from a fresh
record and its timeout is 2 again, not 4. -/
theorem FloodFilterMessage_escalation_counterexample :
    (FloodFilterMessage Sample.longWindow SpamTable.empty Sample.session 1
      ⟨0, [104, 105], [66], 0⟩).SpamStats (Sample.session.GetPeerAddress 1)
      = some ⟨2, 2, 2, -1⟩ ∧
    FloodEvent.seconds [FloodEvent.second, FloodEvent.second]
      < Sample.longWindow.cfg.FloodTimeoutSeconds
        + Sample.longWindow.cfg.FloodTimeoutResetSeconds ∧
    FloodEvent.run Sample.longWindow Sample.session
      (FloodFilterMessage Sample.longWindow SpamTable.empty Sample.session 1
        ⟨0, [104, 105], [66], 0⟩).SpamStats
      [FloodEvent.second, FloodEvent.second] (Sample.session.GetPeerAddress 1)
      = Option.none ∧
    Triggers Sample.longWindow (Sample.session.GetPeerAddress 1) ClientSpamStats.new
      ⟨0, [111, 107], [66], 0⟩ ∧
    (FloodFilterMessage Sample.longWindow
      (FloodEvent.run Sample.longWindow Sample.session
        (FloodFilterMessage Sample.longWindow SpamTable.empty Sample.session 1
          ⟨0, [104, 105], [66], 0⟩).SpamStats
        [FloodEvent.second, FloodEvent.second])
      Sample.session 1 ⟨0, [111, 107], [66], 0⟩).SpamStats (Sample.session.GetPeerAddress 1)
      = some ⟨2, 2, 2, -1⟩ := by
  decide

/-! ## The sender of what the host hands on -/

theorem handlers_keep_sender (hs : List ChatHandler) (p : Int)
    (hkeep : ∀ h ∈ hs, ∀ q m g, (h.MessageSent q m g).1.Sender = m.Sender) :
    ∀ (k : Nat) (m : ChatMessage) (g : Bool),
      (BroadcastMessage.handlers hs k p m g).1.Sender = m.Sender := by
  induction hs with
  | nil => intro k m g; rfl
  | cons h hs ih =>
    intro k m g
    simp only [BroadcastMessage.handlers]
    rw [ih (fun h' hh' => hkeep h' (List.mem_cons_of_mem _ hh')), hkeep h (by simp)]

theorem BroadcastMessage_deliveries (env : Env) (session : Session) (p : Int)
    (b : ChatMessage) (peers : PeerBitSet) :
    ∀ e ∈ (BroadcastMessage env session p b peers).2,
      (∀ q m, e = Effect.PacketSend q m →
        m = (BroadcastMessage.handlers env.chatHandlers 0 p b false).1) ∧
      (∀ j m, e = Effect.MessageReceived j m →
        m = (BroadcastMessage.handlers env.chatHandlers 0 p b false).1) := by
  intro e he
  have hh : ∀ e ∈ (BroadcastMessage.handlers env.chatHandlers 0 p b false).2.2,
      (∀ q m, e ≠ Effect.PacketSend q m) ∧ (∀ j m, e ≠ Effect.MessageReceived j m) := by
    intro e he
    obtain ⟨j, m', g', rfl, _⟩ := handlers_effects _ _ _ _ _ e he
    exact ⟨fun _ _ hc => by simp at hc, fun _ _ hc => by simp at hc⟩
  simp only [BroadcastMessage] at he
  split_ifs at he with h1 h2
  · simp at he
  · exact ⟨fun q m hc => absurd hc ((hh e he).1 q m),
      fun j m hc => absurd hc ((hh e he).2 j m)⟩
  · rw [List.mem_append] at he
    rcases he with he | he
    · exact ⟨fun q m hc => absurd hc ((hh e he).1 q m),
        fun j m hc => absurd hc ((hh e he).2 j m)⟩
    · rcases loop_effects _ _ _ _ _ e he with ⟨j, rfl, _⟩ | ⟨q, _, rfl, _⟩
      · refine ⟨fun _ _ hc => by simp at hc, fun j' m hc => ?_⟩
        simp only [Effect.MessageReceived.injEq] at hc
        exact hc.2.symm
      · refine ⟨fun q' m hc => ?_, fun _ _ hc => by simp at hc⟩
        simp only [Effect.PacketSend.injEq] at hc
        exact hc.2.symm

theorem BroadcastMessage_all_sends (env : Env) (session : Session) (p : Int)
    (b : ChatMessage) (hp : 0 ≤ p)
    (hflag : (BroadcastMessage.handlers env.chatHandlers 0 p b false).2.1 = false) :
    (∀ q ∈ session.Connected, q ≠ session.LocalPeerIndex →
      Effect.PacketSend q (BroadcastMessage.handlers env.chatHandlers 0 p b false).1
        ∈ (BroadcastMessage env session p b PeerBitSet.all).2) ∧
    (session.LocalPeerIndex ∈ session.Connected → ∀ j, j < env.chatHandlers.length →
      Effect.MessageReceived j (BroadcastMessage.handlers env.chatHandlers 0 p b false).1
        ∈ (BroadcastMessage env session p b PeerBitSet.all).2) := by
  have hb : (BroadcastMessage env session p b PeerBitSet.all).2
      = (BroadcastMessage.handlers env.chatHandlers 0 p b false).2.2 ++
        session.Connected.flatMap (BroadcastSpec.delivery env session
          (BroadcastMessage.handlers env.chatHandlers 0 p b false).1 PeerBitSet.all) := by
    simp only [BroadcastMessage, hflag, Bool.false_eq_true, if_false, loop_eq,
      Session.Connected]
    rw [if_neg (by omega)]
  rw [hb]
  constructor
  · intro q hq hne
    apply List.mem_append_right
    rw [List.mem_flatMap]
    refine ⟨q, hq, ?_⟩
    simp [BroadcastSpec.delivery, PeerBitSet.test, PeerBitSet.all, hne]
  · intro hl j hj
    apply List.mem_append_right
    rw [List.mem_flatMap]
    refine ⟨session.LocalPeerIndex, hl, ?_⟩
    simp only [BroadcastSpec.delivery, PeerBitSet.test, PeerBitSet.all, if_true, List.mem_map,
      List.mem_range]
    exact ⟨j, hj, rfl⟩

open ChatMessageType in
theorem HostReceivedMessage_of_accepted (env : Env) (t : SpamTable) (session : Session)
    (peer : Int) (message b : ChatMessage)
    (hb : b = { message with
      Sender := (session.DisplayName (session.GetPeerPlayer peer)).take
        (env.L.SenderSize - 1) })
    (hpeer : 0 ≤ peer) (hbody : message.Body ≠ []) (htype : message.MessageType ≠ Server)
    (hplayer : 0 ≤ session.GetPeerPlayer peer)
    (haccept : (HostReceivedMessage.floodCheck env t session peer b).result = false) :
    (HostReceivedMessage env t session peer message).effects
      = LogMessage env session peer b ++
        (if (GetMessagePeers session peer message PeerBitSet.none).1 = true then
          (BroadcastMessage env session peer b
            (GetMessagePeers session peer message PeerBitSet.none).2).2
        else []) ∧
    (HostReceivedMessage env t session peer message).result
      = (if (GetMessagePeers session peer message PeerBitSet.none).1 = true then
          (BroadcastMessage env session peer b
            (GetMessagePeers session peer message PeerBitSet.none).2).1
        else false) := by
  have h1 : ¬(peer < 0 ∨ message.Body = [] ∨ message.MessageType = Server) := by
    rintro (h | h | h)
    · omega
    · exact hbody h
    · exact htype h
  have h2 : FillInSenderName env session peer message = (true, b) := by
    simp only [FillInSenderName]
    rw [if_neg (by omega), hb]
  simp only [HostReceivedMessage, h1, h2, haccept, if_false, Bool.not_true,
    Bool.false_eq_true, HostReceivedMessage.deliver]
  by_cases hg : (GetMessagePeers session peer message PeerBitSet.none).1 = true
  · simp [hg]
  · simp [hg]

open ChatMessageType in
theorem HostReceivedMessage_sender_filled (env : Env) (t : SpamTable) (session : Session)
    (peer : Int) (message : ChatMessage) (sender : List Nat) :
    HostReceivedMessage env t session peer { message with Sender := sender }
      = HostReceivedMessage env t session peer message ∧
    ((FillInSenderName env session peer message).1 = true →
      (FillInSenderName env session peer message).2 = { message with
        Sender := (session.DisplayName (session.GetPeerPlayer peer)).take
          (env.L.SenderSize - 1) }) ∧
    (∀ l, Effect.Log l ∈ (HostReceivedMessage env t session peer message).effects →
      l.Sender = (session.DisplayName (session.GetPeerPlayer peer)).take
        (env.L.SenderSize - 1)) ∧
    (∀ p m g, Effect.MessageSent 0 p m g ∈
        (HostReceivedMessage env t session peer message).effects →
      m.MessageType ≠ Server →
      m.Sender = (session.DisplayName (session.GetPeerPlayer peer)).take
        (env.L.SenderSize - 1)) := by
  have hfill : (FillInSenderName env session peer message).1 = true →
      (FillInSenderName env session peer message).2 = { message with
        Sender := (session.DisplayName (session.GetPeerPlayer peer)).take
          (env.L.SenderSize - 1) } := by
    unfold FillInSenderName
    simp only
    split_ifs <;> simp
  have hflood : ∀ b, ∀ e ∈ (HostReceivedMessage.floodCheck env t session peer b).effects,
      (∀ l, e ≠ Effect.Log l) ∧
      (∀ p m g, e = Effect.MessageSent 0 p m g → m.MessageType = Server) := by
    intro b e he
    unfold HostReceivedMessage.floodCheck at he
    split_ifs at he
    · rcases FloodFilterMessage_effects env t session peer b with h | ⟨ts, h⟩
      · simp [h] at he
      · rw [h] at he
        rcases SendServerMessage_effects _ _ _ e he with ⟨j, p, m', g', rfl, h0⟩ |
          ⟨j, m', rfl, _⟩ | ⟨q, m', rfl, _⟩
        · refine ⟨by simp, ?_⟩
          intro p' m g heq
          simp only [Effect.MessageSent.injEq] at heq
          obtain ⟨hj, _, hm, _⟩ := heq
          rw [← hm, h0 hj, ChatMessage_new_type]
        · simp
        · simp
    · simp at he
  have hdel : ∀ t' b, ∀ e ∈ (HostReceivedMessage.deliver env t' session peer message b).effects,
      (∀ l, e = Effect.Log l → l.Sender = b.Sender) ∧
      (∀ p m g, e = Effect.MessageSent 0 p m g → m = b) := by
    intro t' b e he
    have hlog : ∀ e ∈ LogMessage env session peer b,
        (∀ l, e = Effect.Log l → l.Sender = b.Sender) ∧
        (∀ p m g, e = Effect.MessageSent 0 p m g → m = b) := by
      intro e he
      obtain ⟨l, rfl, hl⟩ := LogMessage_effects _ _ _ _ e he
      refine ⟨?_, by simp⟩
      intro l' hl'
      simp only [Effect.Log.injEq] at hl'
      rw [← hl', hl]
    simp only [HostReceivedMessage.deliver] at he
    split_ifs at he
    · exact hlog e he
    · rw [List.mem_append] at he
      rcases he with he | he
      · exact hlog e he
      · rcases BroadcastMessage_effects _ _ _ _ _ e he with ⟨j, m', g', rfl, h0⟩ |
          ⟨j, m', rfl, _⟩ | ⟨q, m', rfl, _⟩
        · refine ⟨by simp, ?_⟩
          intro p' m g heq
          simp only [Effect.MessageSent.injEq] at heq
          obtain ⟨hj, _, hm, _⟩ := heq
          rw [← hm, h0 hj]
        · simp
        · simp
  have hall : ∀ e ∈ (HostReceivedMessage env t session peer message).effects,
      (∀ l, e = Effect.Log l → l.Sender
        = (session.DisplayName (session.GetPeerPlayer peer)).take (env.L.SenderSize - 1)) ∧
      (∀ p m g, e = Effect.MessageSent 0 p m g → m.MessageType ≠ Server → m.Sender
        = (session.DisplayName (session.GetPeerPlayer peer)).take (env.L.SenderSize - 1)) := by
    intro e he
    simp only [HostReceivedMessage] at he
    split_ifs at he with h1 h2 h3
    · simp at he
    · simp at he
    · obtain ⟨ha, hb⟩ := hflood _ e he
      exact ⟨fun l hl => absurd hl (ha l), fun p m g hm hne => absurd (hb p m g hm) hne⟩
    · have hf := hfill (by simpa using h2)
      obtain ⟨ha, hb⟩ := hdel _ _ e he
      refine ⟨fun l hl => ?_, fun p m g hm _ => ?_⟩
      · rw [ha l hl, hf]
      · rw [hb p m g hm, hf]
  refine ⟨?_, hfill, fun l hl => (hall _ hl).1 l rfl, fun p m g hm => (hall _ hm).2 p m g rfl⟩
  by_cases hpl : session.GetPeerPlayer peer < 0
  · simp [HostReceivedMessage, FillInSenderName, hpl]
  · simp [HostReceivedMessage, FillInSenderName, hpl, HostReceivedMessage.deliver,
      GetMessagePeers]

open ChatMessageType in
/-- C6. The host never trusts the inbound sender field. Replacing the `Sender` of an inbound
message by any other value changes nothing of what `HostReceivedMessage` does: the result,
the flood table and every effect (so every message handed on) are the same. The message the
host builds, `b`, is the inbound message with the display name of the player of the peer,
cut to the capacity of the field, as its sender; that name is the sender of every log line
and of the message handed to the first handler (the only other message that reaches a
handler first is a flood notice, of type Server). When the message is accepted (valid peer
with a player, non-empty body, type not Server, not thrown out by the flood check) the
effects are the log line for `b` followed by the broadcast of `b` to the destination set;
every packet sent and every `MessageReceived` callback carries `b` as the handlers left it,
so its sender is the display name unless a handler rewrote the sender; and a Global message
that no handler vetoes does reach every other connected peer over the transport and the
handlers of the local peer. -/
theorem HostReceivedMessage_sender_untrusted (env : Env) (t : SpamTable) (session : Session)
    (peer : Int) (message : ChatMessage) (sender : List Nat) :
    HostReceivedMessage env t session peer { message with Sender := sender }
      = HostReceivedMessage env t session peer message ∧
    ((FillInSenderName env session peer message).1 = true →
      (FillInSenderName env session peer message).2 = { message with
        Sender := (session.DisplayName (session.GetPeerPlayer peer)).take
          (env.L.SenderSize - 1) }) ∧
    (∀ l, Effect.Log l ∈ (HostReceivedMessage env t session peer message).effects →
      l.Sender = (session.DisplayName (session.GetPeerPlayer peer)).take
        (env.L.SenderSize - 1)) ∧
    (∀ p m g, Effect.MessageSent 0 p m g ∈
        (HostReceivedMessage env t session peer message).effects →
      m.MessageType ≠ Server →
      m.Sender = (session.DisplayName (session.GetPeerPlayer peer)).take
        (env.L.SenderSize - 1)) ∧
    (∀ b : ChatMessage,
      b = { message with
        Sender := (session.DisplayName (session.GetPeerPlayer peer)).take
          (env.L.SenderSize - 1) } →
      0 ≤ peer → message.Body ≠ [] → message.MessageType ≠ Server →
      0 ≤ session.GetPeerPlayer peer →
      (HostReceivedMessage.floodCheck env t session peer b).result = false →
      (HostReceivedMessage env t session peer message).effects
        = LogMessage env session peer b ++
          (if (GetMessagePeers session peer message PeerBitSet.none).1 = true then
            (BroadcastMessage env session peer b
              (GetMessagePeers session peer message PeerBitSet.none).2).2
          else []) ∧
      (∀ q m, Effect.PacketSend q m ∈ (HostReceivedMessage env t session peer message).effects →
        m = (BroadcastMessage.handlers env.chatHandlers 0 peer b false).1) ∧
      (∀ j m, Effect.MessageReceived j m ∈
          (HostReceivedMessage env t session peer message).effects →
        m = (BroadcastMessage.handlers env.chatHandlers 0 peer b false).1) ∧
      ((∀ h ∈ env.chatHandlers, ∀ q m g, (h.MessageSent q m g).1.Sender = m.Sender) →
        (BroadcastMessage.handlers env.chatHandlers 0 peer b false).1.Sender
          = (session.DisplayName (session.GetPeerPlayer peer)).take (env.L.SenderSize - 1)) ∧
      (message.MessageType = Global →
        (BroadcastMessage.handlers env.chatHandlers 0 peer b false).2.1 = false →
        (∀ q ∈ session.Connected, q ≠ session.LocalPeerIndex →
          Effect.PacketSend q (BroadcastMessage.handlers env.chatHandlers 0 peer b false).1
            ∈ (HostReceivedMessage env t session peer message).effects) ∧
        (session.LocalPeerIndex ∈ session.Connected → ∀ j, j < env.chatHandlers.length →
          Effect.MessageReceived j
              (BroadcastMessage.handlers env.chatHandlers 0 peer b false).1
            ∈ (HostReceivedMessage env t session peer message).effects))) := by
  obtain ⟨c1, c2, c3, c4⟩ :=
    HostReceivedMessage_sender_filled env t session peer message sender
  refine ⟨c1, c2, c3, c4, ?_⟩
  intro b hb hpeer hbody htype hplayer haccept
  obtain ⟨heff, _⟩ := HostReceivedMessage_of_accepted env t session peer message b hb hpeer
    hbody htype hplayer haccept
  have hdel : ∀ e ∈ (HostReceivedMessage env t session peer message).effects,
      (∀ q m, e = Effect.PacketSend q m →
        m = (BroadcastMessage.handlers env.chatHandlers 0 peer b false).1) ∧
      (∀ j m, e = Effect.MessageReceived j m →
        m = (BroadcastMessage.handlers env.chatHandlers 0 peer b false).1) := by
    intro e he
    rw [heff, List.mem_append] at he
    rcases he with he | he
    · obtain ⟨l, rfl, _⟩ := LogMessage_effects _ _ _ _ e he
      exact ⟨fun _ _ hc => by simp at hc, fun _ _ hc => by simp at hc⟩
    · split_ifs at he
      · exact BroadcastMessage_deliveries _ _ _ _ _ e he
      · simp at he
  refine ⟨heff, fun q m hm => (hdel _ hm).1 q m rfl, fun j m hm => (hdel _ hm).2 j m rfl,
    ?_, ?_⟩
  · intro hkeep
    rw [handlers_keep_sender env.chatHandlers peer hkeep, hb]
  · intro hglobal hflag
    have hg : GetMessagePeers session peer message PeerBitSet.none = (true, PeerBitSet.all) := by
      simp [GetMessagePeers, hglobal]
    obtain ⟨hs1, hs2⟩ := BroadcastMessage_all_sends env session peer b hpeer hflag
    rw [heff, hg]
    simp only [if_true]
    exact ⟨fun q hq hne => List.mem_append_right _ (hs1 q hq hne),
      fun hl j hj => List.mem_append_right _ (hs2 hl j hj)⟩

open ChatMessageType in
/-- Witness of C6: in the sample session with one watching handler, peer 1 sends the Global
message "hi" under the forged sender "Z"; what is logged, shown to the local handler and
sent to peers 1 and 2 carries the sender "B". -/
theorem HostReceivedMessage_sender_untrusted_witness :
    ((0 : Int) ≤ 1 ∧ 0 ≤ Sample.session.GetPeerPlayer 1 ∧
      (HostReceivedMessage.floodCheck Sample.watched SpamTable.empty Sample.session 1
        ⟨Global, [104, 105], [66], 0⟩).result = false) ∧
    Effect.PacketSend 2
        (BroadcastMessage.handlers Sample.watched.chatHandlers 0 1
          ⟨Global, [104, 105], [66], 0⟩ false).1
      ∈ (HostReceivedMessage Sample.watched SpamTable.empty Sample.session 1
          ⟨Global, [104, 105], [90], 0⟩).effects ∧
    (HostReceivedMessage Sample.watched SpamTable.empty Sample.session 1
      ⟨Global, [104, 105], [90], 0⟩).effects
      = [Effect.Log ⟨[66], 7001, 167772161, [104, 105]⟩,
          Effect.MessageSent 0 1 ⟨Global, [104, 105], [66], 0⟩ false,
          Effect.MessageReceived 0 ⟨Global, [104, 105], [66], 0⟩,
          Effect.PacketSend 1 ⟨Global, [104, 105], [66], 0⟩,
          Effect.PacketSend 2 ⟨Global, [104, 105], [66], 0⟩] :=
  ⟨by decide,
    (((HostReceivedMessage_sender_untrusted Sample.watched SpamTable.empty Sample.session 1
      ⟨Global, [104, 105], [90], 0⟩ []).2.2.2.2 ⟨Global, [104, 105], [66], 0⟩ (by decide)
      (by decide) (by decide) (by decide) (by decide) (by decide)).2.2.2.2 rfl
      (by decide)).1 2 (by decide) (by decide),
    by decide⟩

end ServerChat
